import Mathlib

/-!
# Forwarding-plane core: resolving interface and longest-prefix-match router

A shallow embedding of `src/network_interface.cc` (`NetworkInterface`) and
`src/router.cc` (`Router`), followed by theorems about them.

Conventions of the embedding

* 32-bit network addresses (`Address::ipv4_numeric`), 48-bit link addresses, 8-bit
  prefix lengths and TTLs are natural numbers; the places where the source narrows
  a value (`uint8_t len = 32 - prefix_length`) carry an explicit `% 256`.
* `std::map`/`std::unordered_map` members are finite maps written as functions
  `Nat → Option V`; `count(k)` is `m k ≠ none`, `m[k] = v` is `Function.update`,
  `erase(k)` is an update to `none`.
* `std::queue` members are lists, front first; `push` appends at the tail.
* The codec (`serialize`, `parse`, `IPv4Header::compute_checksum`) lives outside
  these two files; it is a parameter `Codec` of every operation.
-/

namespace Net

/-! ## Data model -/

/-- Link-layer (Ethernet) address, a 48-bit value. -/
abbrev EthernetAddress := Nat

/-- Opaque payload bytes of a frame or datagram. -/
abbrev Payload := List Nat

/-- Modelled from the spec: the well-known broadcast link address, declared in
`ethernet_header.hh`; all 48 bits set. -/
def ETHERNET_BROADCAST : EthernetAddress := 0xFFFFFFFFFFFF

/-- Modelled from the spec: payload-type tag of a frame carrying a datagram
(`EthernetHeader::TYPE_IPv4`). -/
def TYPE_IPv4 : Nat := 0x800

/-- Modelled from the spec: payload-type tag of a frame carrying a resolution
message (`EthernetHeader::TYPE_ARP`). -/
def TYPE_ARP : Nat := 0x806

/-- Modelled from the spec: opcode of a resolution request (`ARPMessage::OPCODE_REQUEST`). -/
def OPCODE_REQUEST : Nat := 1

/-- Modelled from the spec: opcode of a resolution reply (`ARPMessage::OPCODE_REPLY`). -/
def OPCODE_REPLY : Nat := 2

/-- Modelled from the spec: the datagram header. The fields the two source files
touch are `ttl`, `dst` and the checksum; every remaining header field is kept,
uninterpreted, in `other`. -/
structure IPv4Header where
  ttl : Nat
  dst : Nat
  cksum : Nat
  other : List Nat
  deriving DecidableEq, Repr

/-- Modelled from the spec: `InternetDatagram` (declared outside `src/`), a header plus
opaque payload bytes. -/
structure InternetDatagram where
  header : IPv4Header
  payload : Payload
  deriving DecidableEq, Repr

/-- Modelled from the spec: `EthernetHeader` (declared outside `src/`): destination and
source link address, payload-type tag. -/
structure EthernetHeader where
  dst : EthernetAddress
  src : EthernetAddress
  type : Nat
  deriving DecidableEq, Repr

/-- Modelled from the spec: `EthernetFrame` (declared outside `src/`), a header plus opaque
payload bytes. -/
structure EthernetFrame where
  header : EthernetHeader
  payload : Payload
  deriving DecidableEq, Repr

/-- Modelled from the spec: `ARPMessage` (declared in `arp_message.hh`): opcode, sender
address pair, target address pair. A default-constructed message has every field zero. -/
structure ARPMessage where
  opcode : Nat
  sender_ethernet_address : EthernetAddress
  sender_ip_address : Nat
  target_ethernet_address : EthernetAddress
  target_ip_address : Nat
  deriving DecidableEq, Repr

/-- Modelled from the spec: the codec the two source files call but do not define.
`checksum h` is the value `IPv4Header::compute_checksum` stores in the checksum
field of `h`; decoding may fail. -/
structure Codec where
  checksum : IPv4Header → Nat
  serialize_dgram : InternetDatagram → Payload
  parse_dgram : Payload → Option InternetDatagram
  serialize_arp : ARPMessage → Payload
  parse_arp : Payload → Option ARPMessage

/-- Modelled from the spec: `IPv4Header::compute_checksum` overwrites the checksum
field, and only that field, with a function of the header. -/
def compute_checksum (cdc : Codec) (h : IPv4Header) : IPv4Header :=
  { h with cksum := cdc.checksum h }

/-- Modelled from the spec: the value type of `ARP_table` (declared in
`network_interface.hh`): cached link address and the clock at which it was learned. -/
structure MacAddress where
  mac_addr : EthernetAddress
  cache_time : Nat
  deriving DecidableEq, Repr

/-- Modelled from the spec: the members of `NetworkInterface` (declared in
`network_interface.hh`): own address pair, resolution cache, pending-request markers,
pending-datagram queues, outbound queue, and a monotonic millisecond clock. -/
structure NetworkInterface where
  ethernet_address_ : EthernetAddress
  ip_address_ : Nat
  ARP_table : Nat → Option MacAddress
  last_ARP_time : Nat → Option Nat
  wait_mac_queue : Nat → Option (List InternetDatagram)
  ready_queue : List EthernetFrame
  curr_time : Nat

/-- Constructor `NetworkInterface::NetworkInterface` (lines 10-15): the maps and queues
start empty and the clock at zero. -/
def NetworkInterface.fresh (ethernet_address ip_address : Nat) : NetworkInterface :=
  { ethernet_address_ := ethernet_address
    ip_address_ := ip_address
    ARP_table := fun _ => none
    last_ARP_time := fun _ => none
    wait_mac_queue := fun _ => none
    ready_queue := []
    curr_time := 0 }

/-! ## `NetworkInterface` operations -/

/-- Frame built on the cache-hit path of `send_datagram` and in the flush loop of
`recv_frame`: an IPv4 frame from this interface to `dst` carrying `dgram`. -/
def ipv4Frame (cdc : Codec) (s : NetworkInterface) (dst : EthernetAddress)
    (dgram : InternetDatagram) : EthernetFrame :=
  { header := { dst := dst, src := s.ethernet_address_, type := TYPE_IPv4 }
    payload := cdc.serialize_dgram dgram }

/-- The request message built in `send_datagram` (lines 50-54). -/
def arpRequest (s : NetworkInterface) (next_hop_ip : Nat) : ARPMessage :=
  { opcode := OPCODE_REQUEST
    sender_ethernet_address := s.ethernet_address_
    sender_ip_address := s.ip_address_
    target_ethernet_address := 0
    target_ip_address := next_hop_ip }

/-- The broadcast frame carrying `arpRequest` (lines 44-56). -/
def arpRequestFrame (cdc : Codec) (s : NetworkInterface) (next_hop_ip : Nat) : EthernetFrame :=
  { header := { dst := ETHERNET_BROADCAST, src := s.ethernet_address_, type := TYPE_ARP }
    payload := cdc.serialize_arp (arpRequest s next_hop_ip) }

/-- The reply message built in `recv_frame` (lines 102-106). -/
def arpReply (s : NetworkInterface) (message : ARPMessage) : ARPMessage :=
  { opcode := OPCODE_REPLY
    sender_ethernet_address := s.ethernet_address_
    sender_ip_address := s.ip_address_
    target_ethernet_address := message.sender_ethernet_address
    target_ip_address := message.sender_ip_address }

/-- The unicast frame carrying `arpReply` (lines 97-109). -/
def arpReplyFrame (cdc : Codec) (s : NetworkInterface) (message : ARPMessage) : EthernetFrame :=
  { header := { dst := message.sender_ethernet_address, src := s.ethernet_address_,
                type := TYPE_ARP }
    payload := cdc.serialize_arp (arpReply s message) }

/-- The `wait_mac_queue[k]` of the source when used as an rvalue: the queue stored
under `k`, a fresh empty queue when the key is absent. -/
def queueAt (m : Nat → Option (List InternetDatagram)) (k : Nat) : List InternetDatagram :=
  (m k).getD []

/-- `NetworkInterface::send_datagram` (lines 23-65). -/
def send_datagram (cdc : Codec) (s : NetworkInterface) (dgram : InternetDatagram)
    (next_hop : Nat) : NetworkInterface :=
  match s.ARP_table next_hop with
  | some e =>
    { s with ready_queue := s.ready_queue ++ [ipv4Frame cdc s e.mac_addr dgram] }
  | none =>
    let s1 : NetworkInterface :=
      match s.last_ARP_time next_hop with
      | none =>
        { s with
          ready_queue := s.ready_queue ++ [arpRequestFrame cdc s next_hop]
          last_ARP_time := Function.update s.last_ARP_time next_hop (some s.curr_time) }
      | some _ => s
    { s1 with
      wait_mac_queue :=
        Function.update s1.wait_mac_queue next_hop
          (some (queueAt s1.wait_mac_queue next_hop ++ [dgram])) }

/-- The `while (queue.size())` loop of `recv_frame` (lines 117-133): pops the front
datagram, pushes its frame on the outbound queue, until the pending queue is empty.
Returns the pending queue and the outbound queue at loop exit. -/
def flushQueue (cdc : Codec) (s : NetworkInterface) (dst : EthernetAddress) :
    List InternetDatagram → List EthernetFrame → List InternetDatagram × List EthernetFrame
  | [], ready => ([], ready)
  | data :: queue, ready => flushQueue cdc s dst queue (ready ++ [ipv4Frame cdc s dst data])

/-- The part of `recv_frame` run on a decoded resolution message (lines 84-137): learn
the sender, reply to a request for this interface, flush the datagrams waiting for the
sender and erase its marker. -/
def recv_arp (cdc : Codec) (s : NetworkInterface) (message : ARPMessage) : NetworkInterface :=
  let s1 : NetworkInterface :=
    { s with
      ARP_table :=
        Function.update s.ARP_table message.sender_ip_address
          (some { mac_addr := message.sender_ethernet_address, cache_time := s.curr_time }) }
  let s2 : NetworkInterface :=
    if message.opcode = OPCODE_REQUEST ∧ message.target_ip_address = s.ip_address_ then
      { s1 with ready_queue := s1.ready_queue ++ [arpReplyFrame cdc s message] }
    else s1
  match s2.wait_mac_queue message.sender_ip_address with
  | none => s2
  | some queue =>
    let r := flushQueue cdc s message.sender_ethernet_address queue s2.ready_queue
    { s2 with
      ready_queue := r.2
      wait_mac_queue := Function.update s2.wait_mac_queue message.sender_ip_address (some r.1)
      last_ARP_time := Function.update s2.last_ARP_time message.sender_ip_address none }

/-- `NetworkInterface::recv_frame` (lines 68-141): the returned datagram, if any, and
the state afterwards. -/
def recv_frame (cdc : Codec) (s : NetworkInterface) (frame : EthernetFrame) :
    Option InternetDatagram × NetworkInterface :=
  if frame.header.dst ≠ ETHERNET_BROADCAST ∧ frame.header.dst ≠ s.ethernet_address_ then
    (none, s)
  else if frame.header.type = TYPE_IPv4 then
    match cdc.parse_dgram frame.payload with
    | none => (none, s)
    | some data => (some data, s)
  else if frame.header.type = TYPE_ARP then
    match cdc.parse_arp frame.payload with
    | none => (none, s)
    | some message => (none, recv_arp cdc s message)
  else (none, s)

/-- One of the two erase loops of `tick`: keep the value unless `old` holds of it. -/
def eraseIf {V : Type} (old : V → Bool) (m : Nat → Option V) : Nat → Option V :=
  fun k =>
    match m k with
    | none => none
    | some v => if old v then none else some v

/-- `NetworkInterface::tick` (lines 144-163). -/
def tick (s : NetworkInterface) (ms_since_last_tick : Nat) : NetworkInterface :=
  let now := s.curr_time + ms_since_last_tick
  { s with
    curr_time := now
    ARP_table := eraseIf (fun e => decide (now - e.cache_time ≥ 30 * 1000)) s.ARP_table
    last_ARP_time := eraseIf (fun t => decide (now - t ≥ 5 * 1000)) s.last_ARP_time }

/-- `NetworkInterface::maybe_send` (lines 165-173). -/
def maybe_send (s : NetworkInterface) : Option EthernetFrame × NetworkInterface :=
  match s.ready_queue with
  | [] => (none, s)
  | frame :: rest => (some frame, { s with ready_queue := rest })

/-- One call on an interface, as made by its driver. -/
inductive Op where
  | send (dgram : InternetDatagram) (next_hop : Nat)
  | recv (frame : EthernetFrame)
  | tick (ms : Nat)
  | drain
  deriving DecidableEq, Repr

/-- State after one call; results handed back to the caller are discarded. -/
def step (cdc : Codec) (s : NetworkInterface) : Op → NetworkInterface
  | .send dgram next_hop => send_datagram cdc s dgram next_hop
  | .recv frame => (recv_frame cdc s frame).2
  | .tick ms => tick s ms
  | .drain => (maybe_send s).2

/-- State after a sequence of calls, first call first. -/
def run (cdc : Codec) (s : NetworkInterface) (ops : List Op) : NetworkInterface :=
  ops.foldl (step cdc) s

/-- States reachable from a freshly constructed interface. -/
def Reachable (cdc : Codec) (s : NetworkInterface) : Prop :=
  ∃ (e i : Nat) (ops : List Op), s = run cdc (NetworkInterface.fresh e i) ops

/-- Total time by which the `tick` calls of a sequence advance the clock. -/
def tickSum : List Op → Nat
  | [] => 0
  | .tick ms :: ops => ms + tickSum ops
  | _ :: ops => tickSum ops

/-- The sender address of the resolution message that `recv_frame` processes when an
interface with link address `me` is handed `frame`, if it processes one (lines 70, 80, 82). -/
def arpSender (cdc : Codec) (me : EthernetAddress) (frame : EthernetFrame) : Option Nat :=
  if frame.header.dst ≠ ETHERNET_BROADCAST ∧ frame.header.dst ≠ me then none
  else if frame.header.type = TYPE_IPv4 then none
  else if frame.header.type = TYPE_ARP then
    (cdc.parse_arp frame.payload).map (fun m => m.sender_ip_address)
  else none

/-- The call is not the reception, by the interface with link address `me`, of a
resolution message sent by `n`. -/
def Op.notFrom (cdc : Codec) (me : EthernetAddress) (n : Nat) : Op → Prop
  | .recv frame => arpSender cdc me frame ≠ some n
  | _ => True

/-- The call is a `send_datagram` towards `n` or a `tick`. -/
def Op.sendToOrTick (n : Nat) : Op → Prop
  | .send _ next_hop => next_hop = n
  | .tick _ => True
  | _ => False

/-- The call is not a `send_datagram` towards `n`. -/
def Op.notSendTo (n : Nat) : Op → Prop
  | .send _ next_hop => next_hop ≠ n
  | _ => True

/-- The datagrams a sequence of calls sends towards `n`, in call order. -/
def sentTo (n : Nat) : List Op → List InternetDatagram
  | [] => []
  | .send dgram next_hop :: ops => if next_hop = n then dgram :: sentTo n ops else sentTo n ops
  | _ :: ops => sentTo n ops

/-! ## `Router` -/

/-- Entry of `forward_table`, as pushed by `add_route` (line 23). -/
structure RouteEntry where
  route_prefix : Nat
  prefix_length : Nat
  next_hop : Option Nat
  interface_num : Nat
  deriving DecidableEq, Repr

/-- Modelled from the spec: `AsyncNetworkInterface` (declared in `router.hh`), a
`NetworkInterface` with a receive-side queue of already-decoded datagrams. -/
structure AsyncNetworkInterface where
  nif : NetworkInterface
  datagrams_in : List InternetDatagram

/-- Modelled from the spec: `AsyncNetworkInterface::maybe_receive`, pops the oldest
decoded datagram, if there is one. -/
def AsyncNetworkInterface.maybe_receive (a : AsyncNetworkInterface) :
    Option (InternetDatagram × AsyncNetworkInterface) :=
  match a.datagrams_in with
  | [] => none
  | d :: rest => some (d, { a with datagrams_in := rest })

/-- Modelled from the spec: the members of `Router` (declared in `router.hh`): the
collection of interfaces and the insertion-ordered forwarding table. -/
structure Router where
  interfaces_ : List AsyncNetworkInterface
  forward_table : List RouteEntry

/-- `Router::add_route` (lines 14-24): appends, validates nothing. -/
def add_route (r : Router) ( route_prefix : Nat) (prefix_length : Nat) (next_hop : Option Nat)
    (interface_num : Nat) : Router :=
  { r with forward_table := r.forward_table ++ [⟨ route_prefix, prefix_length, next_hop, interface_num⟩] }

/-- A router whose table is built by calling `add_route` once per element of `rs`, in order. -/
def addRoutes (r : Router) (rs : List RouteEntry) : Router :=
  rs.foldl (fun r e => add_route r ( RouteEntry.route_prefix e) e.prefix_length e.next_hop e.interface_num) r

/-- The test of lines 44-48: `len` is the `uint8_t` value of `32 - prefix_length`, both
addresses are widened and shifted right by `len`. -/
def matchesRoute (route : RouteEntry) (dst : Nat) : Bool :=
  let len := (32 + 256 - route.prefix_length % 256) % 256
  ( RouteEntry.route_prefix route) >>> len == dst >>> len

/-- Body of the table scan (lines 43-52) at index `i`; `idx = none` stands for `-1`. -/
def scanStep (forward_table : List RouteEntry) (dst : Nat) (idx : Option Nat) (i : Nat) :
    Option Nat :=
  match forward_table[i]? with
  | none => idx
  | some route =>
    if matchesRoute route dst then
      match idx with
      | none => some i
      | some j =>
        match forward_table[j]? with
        | none => some j
        | some best => if best.prefix_length < route.prefix_length then some i else some j
    else idx

/-- The table scan (lines 38-53): `i` runs from `0` to `forward_table.size() - 1`. -/
def scanTable (forward_table : List RouteEntry) (dst : Nat) : Option Nat :=
  (List.range forward_table.length).foldl (scanStep forward_table dst) none

/-- A call `interface(interface_num).send_datagram(dgram, next_hop)` made by `route`. -/
structure SendCall where
  interface_num : Nat
  dgram : InternetDatagram
  next_hop : Nat
  deriving DecidableEq, Repr

/-- Ways in which the routing pass can fail to complete. -/
inductive RouteFault where
  | table_index (idx : Nat)
  | interface_index (n : Nat)
  | fuel
  deriving DecidableEq, Repr

/-- Lines 32-65 up to the point where the interface is looked up: the call `route`
is about to make for `dgram`, `none` when the datagram is dropped. -/
def routeDecision (cdc : Codec) (forward_table : List RouteEntry) (dgram : InternetDatagram) :
    Except RouteFault (Option SendCall) :=
  if dgram.header.ttl = 0 then .ok none
  else
    let h1 : IPv4Header := { dgram.header with ttl := dgram.header.ttl - 1 }
    if h1.ttl = 0 then .ok none
    else
      let datagram : InternetDatagram := { dgram with header := compute_checksum cdc h1 }
      match scanTable forward_table datagram.header.dst with
      | none => .ok none
      | some idx =>
        match forward_table[idx]? with
        | none => .error (.table_index idx)
        | some e =>
          match e.next_hop with
          | some hop => .ok (some ⟨e.interface_num, datagram, hop⟩)
          | none => .ok (some ⟨e.interface_num, datagram, datagram.header.dst⟩)

/-- Modelled from the spec: `Router::interface(N)` (declared in `router.hh`) reaches the
interface at index `N` of the collection; there is none when `N` is not an index. -/
def Router.interface (interfaces_ : List AsyncNetworkInterface) (N : Nat) :
    Option AsyncNetworkInterface :=
  interfaces_[N]?

/-- Body of the `while` loop of `route` for one received datagram (lines 32-65): the
interfaces afterwards and the `send_datagram` calls made. -/
def routeDatagram (cdc : Codec) (forward_table : List RouteEntry)
    (interfaces_ : List AsyncNetworkInterface) (dgram : InternetDatagram) :
    Except RouteFault (List AsyncNetworkInterface × List SendCall) :=
  match routeDecision cdc forward_table dgram with
  | .error f => .error f
  | .ok none => .ok (interfaces_, [])
  | .ok (some c) =>
    match Router.interface interfaces_ c.interface_num with
    | none => .error (.interface_index c.interface_num)
    | some a =>
      .ok (interfaces_.set c.interface_num
            { a with nif := send_datagram cdc a.nif c.dgram c.next_hop }, [c])

/-- The `while (true)` loop of `route` on interface `i` (lines 28-66), run for at most
`fuel` iterations. -/
def routeLoop (cdc : Codec) (forward_table : List RouteEntry) (i : Nat) :
    Nat → List AsyncNetworkInterface → Except RouteFault (List AsyncNetworkInterface × List SendCall)
  | 0, _ => .error .fuel
  | fuel + 1, interfaces_ =>
    match interfaces_[i]? with
    | none => .error (.interface_index i)
    | some a =>
      match a.maybe_receive with
      | none => .ok (interfaces_, [])
      | some (dgram, a1) =>
        match routeDatagram cdc forward_table (interfaces_.set i a1) dgram with
        | .error f => .error f
        | .ok (ifs1, calls1) =>
          match routeLoop cdc forward_table i fuel ifs1 with
          | .error f => .error f
          | .ok (ifs2, calls2) => .ok (ifs2, calls1 ++ calls2)

/-- The outer loop of `route` (line 27) over the interfaces with index `i`, ..., `i + n - 1`;
the inner loop on an interface gets one iteration per queued datagram and one to see
the queue empty. -/
def routeFrom (cdc : Codec) (forward_table : List RouteEntry) :
    Nat → Nat → List AsyncNetworkInterface →
      Except RouteFault (List AsyncNetworkInterface × List SendCall)
  | 0, _, interfaces_ => .ok (interfaces_, [])
  | n + 1, i, interfaces_ =>
    match interfaces_[i]? with
    | none => .error (.interface_index i)
    | some a =>
      match routeLoop cdc forward_table i (a.datagrams_in.length + 1) interfaces_ with
      | .error f => .error f
      | .ok (ifs1, calls1) =>
        match routeFrom cdc forward_table n (i + 1) ifs1 with
        | .error f => .error f
        | .ok (ifs2, calls2) => .ok (ifs2, calls1 ++ calls2)

/-- `Router::route` (lines 26-68): the router afterwards and the `send_datagram` calls made. -/
def route (cdc : Codec) (r : Router) : Except RouteFault (Router × List SendCall) :=
  match routeFrom cdc r.forward_table r.interfaces_.length 0 r.interfaces_ with
  | .error f => .error f
  | .ok (ifs, calls) => .ok ({ r with interfaces_ := ifs }, calls)

/-- Loop invariant of the table scan after the indices below `n` have been visited:
`none` means nothing matched so far; `some j` means entry `j` matches, is at least as
long as every match so far, and is the first of that length. -/
def ScanInv (forward_table : List RouteEntry) (dst : Nat) (n : Nat) : Option Nat → Prop
  | none => ∀ i e, i < n → forward_table[i]? = some e → matchesRoute e dst = false
  | some j =>
    j < n ∧ ∃ best, forward_table[j]? = some best ∧ matchesRoute best dst = true ∧
      ∀ i e, i < n → forward_table[i]? = some e → matchesRoute e dst = true →
        e.prefix_length ≤ best.prefix_length ∧ (e.prefix_length = best.prefix_length → j ≤ i)

/-- The datagram `route` hands on: TTL decremented, checksum recomputed over the
decremented header (lines 34-36). -/
def forwarded (cdc : Codec) (dgram : InternetDatagram) : InternetDatagram :=
  { dgram with header := compute_checksum cdc { dgram.header with ttl := dgram.header.ttl - 1 } }

/-- Results of `k` successive `maybe_send` calls, first call first, and the state
after the last of them. -/
def drainN : Nat → NetworkInterface → List (Option EthernetFrame) × NetworkInterface
  | 0, s => ([], s)
  | k + 1, s =>
    let r := maybe_send s
    let rs := drainN k r.2
    (r.1 :: rs.1, rs.2)

/-- Stated from the spec: the prefix-match rule in the spec's words, "comparing the top
`prefix_length` bits only": bit `31 - i` of the route prefix equals bit `31 - i` of the
destination for every `i` below the prefix length. -/
def topBitsEqual (prefix_length p d : Nat) : Bool :=
  (List.range prefix_length).all (fun i => p.testBit (31 - i) == d.testBit (31 - i))

/-- The receive-side queues of the interfaces, by interface index. -/
def inboundQueues (interfaces_ : List AsyncNetworkInterface) : List (List InternetDatagram) :=
  interfaces_.map (fun a => a.datagrams_in)

/-! ## Concrete instances used to evaluate the definitions -/

/-- A concrete codec: the checksum is the sum of the other header fields, a datagram is
encoded as its header fields followed by its payload, a resolution message as its five
fields. -/
def demoCodec : Codec where
  checksum := fun h => (h.ttl + h.dst + h.other.sum) % 65536
  serialize_dgram := fun d => d.header.ttl :: d.header.dst :: d.header.cksum :: d.payload
  parse_dgram := fun p =>
    match p with
    | t :: d :: c :: rest => some ⟨⟨t, d, c, []⟩, rest⟩
    | _ => none
  serialize_arp := fun m =>
    [m.opcode, m.sender_ethernet_address, m.sender_ip_address, m.target_ethernet_address,
      m.target_ip_address]
  parse_arp := fun p =>
    match p with
    | [o, se, si, te, ti] => some ⟨o, se, si, te, ti⟩
    | _ => none

/-- The address `a.b.c.d` as a 32-bit number. -/
def ipv4 (a b c d : Nat) : Nat := ((a * 256 + b) * 256 + c) * 256 + d

/-- A datagram for `dst` with the given TTL. -/
def demoDgram (ttl dst : Nat) : InternetDatagram :=
  ⟨⟨ttl, dst, 0, [4, 5]⟩, [1, 2, 3]⟩

/-- An interface with nothing cached and nothing queued. -/
def demoIface : NetworkInterface := NetworkInterface.fresh 0x020000000001 (ipv4 10 0 0 1)

/-- An interface of the router with an empty receive queue. -/
def demoAsync : AsyncNetworkInterface := ⟨demoIface, []⟩

/-- A resolution reply from `sender_ip` (link address `sender_eth`) in a frame addressed
to the link address `dst`, encoded with `demoCodec`. -/
def demoReplyFrame (dst sender_eth sender_ip target_ip : Nat) : EthernetFrame :=
  ⟨⟨dst, sender_eth, TYPE_ARP⟩,
    demoCodec.serialize_arp ⟨OPCODE_REPLY, sender_eth, sender_ip, dst, target_ip⟩⟩

/-- A frame of type IPv4 addressed to the link address `dst` carrying `dgram`, encoded
with `demoCodec`. -/
def demoDgramFrame (dst src : Nat) (dgram : InternetDatagram) : EthernetFrame :=
  ⟨⟨dst, src, TYPE_IPv4⟩, demoCodec.serialize_dgram dgram⟩

/-! # Theorems -/
/-! ## The table scan -/

theorem scanStep_inv (tbl : List RouteEntry) (dst n : Nat) (idx : Option Nat)
    (hn : n < tbl.length) (h : ScanInv tbl dst n idx) :
    ScanInv tbl dst (n + 1) (scanStep tbl dst idx n) := by
  have hget : tbl[n]? = some tbl[n] := List.getElem?_eq_getElem hn
  unfold scanStep
  rw [hget]
  simp only []
  by_cases hm : matchesRoute tbl[n] dst = true
  · rw [if_pos hm]
    cases idx with
    | none =>
      refine ⟨Nat.lt_succ_self n, tbl[n], hget, hm, ?_⟩
      intro i e hi hie hme
      rcases Nat.lt_succ_iff_lt_or_eq.mp hi with hlt | heq
      · have := h i e hlt hie
        rw [this] at hme
        exact absurd hme (by simp)
      · subst heq
        rw [hget] at hie
        cases hie
        exact ⟨le_refl _, fun _ => le_refl _⟩
    | some j =>
      obtain ⟨hj, best, hbest, hbm, hall⟩ := h
      simp only [hbest]
      by_cases hlt : best.prefix_length < (tbl[n]).prefix_length
      · rw [if_pos hlt]
        refine ⟨Nat.lt_succ_self n, tbl[n], hget, hm, ?_⟩
        intro i e hi hie hme
        rcases Nat.lt_succ_iff_lt_or_eq.mp hi with hi' | heq
        · obtain ⟨h1, _⟩ := hall i e hi' hie hme
          exact ⟨by omega, fun h2 => by omega⟩
        · subst heq
          rw [hget] at hie
          cases hie
          exact ⟨le_refl _, fun _ => le_refl _⟩
      · rw [if_neg hlt]
        refine ⟨Nat.lt_succ_of_lt hj, best, hbest, hbm, ?_⟩
        intro i e hi hie hme
        rcases Nat.lt_succ_iff_lt_or_eq.mp hi with hi' | heq
        · exact hall i e hi' hie hme
        · subst heq
          rw [hget] at hie
          cases hie
          exact ⟨by omega, fun _ => by omega⟩
  · rw [if_neg hm]
    have hm' : matchesRoute tbl[n] dst = false := by simpa using hm
    cases idx with
    | none =>
      intro i e hi hie
      rcases Nat.lt_succ_iff_lt_or_eq.mp hi with hi' | heq
      · exact h i e hi' hie
      · subst heq
        rw [hget] at hie
        cases hie
        exact hm'
    | some j =>
      obtain ⟨hj, best, hbest, hbm, hall⟩ := h
      refine ⟨Nat.lt_succ_of_lt hj, best, hbest, hbm, ?_⟩
      intro i e hi hie hme
      rcases Nat.lt_succ_iff_lt_or_eq.mp hi with hi' | heq
      · exact hall i e hi' hie hme
      · subst heq
        rw [hget] at hie
        cases hie
        rw [hm'] at hme
        exact absurd hme (by simp)

theorem scan_prefix_inv (tbl : List RouteEntry) (dst : Nat) :
    ∀ n, n ≤ tbl.length →
      ScanInv tbl dst n ((List.range n).foldl (scanStep tbl dst) none) := by
  intro n
  induction n with
  | zero =>
    intro _ i e hi
    exact absurd hi (Nat.not_lt_zero i)
  | succ n ih =>
    intro hn
    rw [List.range_succ, List.foldl_append]
    exact scanStep_inv tbl dst n _ (by omega) (ih (by omega))

theorem scanTable_inv (tbl : List RouteEntry) (dst : Nat) :
    ScanInv tbl dst tbl.length (scanTable tbl dst) :=
  scan_prefix_inv tbl dst tbl.length (le_refl _)

theorem scanTable_none_iff (tbl : List RouteEntry) (dst : Nat) :
    scanTable tbl dst = none ↔ ∀ e ∈ tbl, matchesRoute e dst = false := by
  have hinv := scanTable_inv tbl dst
  constructor
  · intro hnone e he
    rw [hnone] at hinv
    obtain ⟨i, hi, hie⟩ := List.getElem_of_mem he
    exact hinv i e hi (by rw [List.getElem?_eq_getElem hi, hie])
  · intro hall
    cases hs : scanTable tbl dst with
    | none => rfl
    | some j =>
      rw [hs] at hinv
      obtain ⟨_, best, hbest, hbm, _⟩ := hinv
      have := hall best (List.getElem?_mem hbest)
      rw [this] at hbm
      exact absurd hbm (by simp)

theorem scanTable_some (tbl : List RouteEntry) (dst j : Nat) (h : scanTable tbl dst = some j) :
    ∃ best, tbl[j]? = some best ∧ matchesRoute best dst = true ∧
      ∀ i e, tbl[i]? = some e → matchesRoute e dst = true →
        e.prefix_length ≤ best.prefix_length ∧ (e.prefix_length = best.prefix_length → j ≤ i) := by
  have hinv := scanTable_inv tbl dst
  rw [h] at hinv
  obtain ⟨_, best, hbest, hbm, hall⟩ := hinv
  refine ⟨best, hbest, hbm, ?_⟩
  intro i e hie hme
  have hi : i < tbl.length := by
    by_contra hge
    rw [List.getElem?_eq_none (by omega)] at hie
    cases hie
  exact hall i e hi hie hme

theorem addRoutes_forward_table (rs : List RouteEntry) :
    ∀ r : Router, (addRoutes r rs).forward_table = r.forward_table ++ rs := by
  induction rs with
  | nil => intro r; simp [addRoutes]
  | cons e rs ih =>
    intro r
    have := ih (add_route r ( RouteEntry.route_prefix e) e.prefix_length e.next_hop e.interface_num)
    simp only [addRoutes, List.foldl_cons] at this ⊢
    rw [this]
    simp [add_route]

theorem addRoutes_interfaces (rs : List RouteEntry) :
    ∀ r : Router, (addRoutes r rs).interfaces_ = r.interfaces_ := by
  induction rs with
  | nil => intro r; simp [addRoutes]
  | cons e rs ih =>
    intro r
    have := ih (add_route r ( RouteEntry.route_prefix e) e.prefix_length e.next_hop e.interface_num)
    simp only [addRoutes, List.foldl_cons] at this ⊢
    rw [this]
    simp [add_route]

/-- C1. Longest-prefix selection: on a table built by `add_route` with prefix lengths in
0..32, the scan of `Router::route` selects no entry exactly when no entry matches the
destination; when it selects index `j`, entry `j` matches, no matching entry has a longer
prefix, and every matching entry of the same length was inserted at `j` or later. -/
theorem route_selects_longest_then_earliest (ifs : List AsyncNetworkInterface)
    (rs : List RouteEntry) (hlen : ∀ e ∈ rs, e.prefix_length ≤ 32) (dst : Nat) :
    (scanTable (addRoutes ⟨ifs, []⟩ rs).forward_table dst = none ↔
        ∀ e ∈ (addRoutes ⟨ifs, []⟩ rs).forward_table, matchesRoute e dst = false) ∧
    (∀ j, scanTable (addRoutes ⟨ifs, []⟩ rs).forward_table dst = some j →
      ∃ best, (addRoutes ⟨ifs, []⟩ rs).forward_table[j]? = some best ∧ best ∈ rs ∧
        best.prefix_length ≤ 32 ∧ matchesRoute best dst = true ∧
        ∀ i e, (addRoutes ⟨ifs, []⟩ rs).forward_table[i]? = some e →
          matchesRoute e dst = true →
            e.prefix_length ≤ best.prefix_length ∧
              (e.prefix_length = best.prefix_length → j ≤ i)) := by
  have htbl : (addRoutes ⟨ifs, []⟩ rs).forward_table = rs := by
    rw [addRoutes_forward_table]; rfl
  rw [htbl]
  refine ⟨scanTable_none_iff rs dst, ?_⟩
  intro j hj
  obtain ⟨best, hbest, hbm, hall⟩ := scanTable_some rs dst j hj
  have hmem : best ∈ rs := List.getElem?_mem hbest
  exact ⟨best, hbest, hmem, hlen best hmem, hbm, hall⟩

/-- Witness for C1: with 10.0.0.0/8 added before 10.1.0.0/16, destination 10.1.2.3 selects
the /16 (index 1); with two identical /16 routes it selects the first added (index 0). -/
theorem route_selects_longest_then_earliest_witness :
    (∀ e ∈ [(⟨ipv4 10 0 0 0, 8, none, 0⟩ : RouteEntry), ⟨ipv4 10 1 0 0, 16, some (ipv4 10 1 0 254), 1⟩],
        e.prefix_length ≤ 32) ∧
    scanTable (addRoutes ⟨[demoAsync], []⟩
        [⟨ipv4 10 0 0 0, 8, none, 0⟩, ⟨ipv4 10 1 0 0, 16, some (ipv4 10 1 0 254), 1⟩]).forward_table
      (ipv4 10 1 2 3) = some 1 ∧
    scanTable (addRoutes ⟨[demoAsync], []⟩
        [⟨ipv4 10 1 0 0, 16, none, 0⟩, ⟨ipv4 10 1 0 0, 16, none, 1⟩]).forward_table
      (ipv4 10 1 2 3) = some 0 ∧
    (∃ best, (addRoutes ⟨[demoAsync], []⟩
        [⟨ipv4 10 0 0 0, 8, none, 0⟩, ⟨ipv4 10 1 0 0, 16, some (ipv4 10 1 0 254), 1⟩]).forward_table[1]?
          = some best ∧ best.prefix_length = 16) :=
  have hlen : ∀ e ∈ [(⟨ipv4 10 0 0 0, 8, none, 0⟩ : RouteEntry),
      ⟨ipv4 10 1 0 0, 16, some (ipv4 10 1 0 254), 1⟩], e.prefix_length ≤ 32 := by decide
  have hsel : scanTable (addRoutes ⟨[demoAsync], []⟩
        [⟨ipv4 10 0 0 0, 8, none, 0⟩, ⟨ipv4 10 1 0 0, 16, some (ipv4 10 1 0 254), 1⟩]).forward_table
      (ipv4 10 1 2 3) = some 1 := by decide
  ⟨hlen, hsel, by decide,
    ((route_selects_longest_then_earliest [demoAsync] _ hlen (ipv4 10 1 2 3)).2 1 hsel).elim
      (fun best h => ⟨best, h.1, by
        have h1 := h.1
        simp [addRoutes, add_route] at h1
        rw [← h1]⟩)⟩

/-! ## The routing decision -/

theorem routeDecision_ttl_le_one (cdc : Codec) (tbl : List RouteEntry) (d : InternetDatagram)
    (h : d.header.ttl = 0 ∨ d.header.ttl = 1) : routeDecision cdc tbl d = .ok none := by
  unfold routeDecision
  rcases h with h | h
  · simp [h]
  · simp [h]

theorem routeDecision_no_match (cdc : Codec) (tbl : List RouteEntry) (d : InternetDatagram)
    (h : scanTable tbl d.header.dst = none) : routeDecision cdc tbl d = .ok none := by
  unfold routeDecision
  by_cases h0 : d.header.ttl = 0
  · simp [h0]
  · by_cases h1 : d.header.ttl - 1 = 0
    · simp [h0, h1]
    · simp [h0, h1, compute_checksum, h]

theorem routeDecision_forward (cdc : Codec) (tbl : List RouteEntry) (d : InternetDatagram)
    (j : Nat) (e : RouteEntry) (httl : 2 ≤ d.header.ttl)
    (hsel : scanTable tbl d.header.dst = some j) (he : tbl[j]? = some e) :
    routeDecision cdc tbl d =
      .ok (some ⟨e.interface_num, forwarded cdc d, e.next_hop.getD d.header.dst⟩) := by
  unfold routeDecision
  have h0 : ¬ d.header.ttl = 0 := by omega
  have h1 : ¬ d.header.ttl - 1 = 0 := by omega
  simp only [h0, h1, if_false, compute_checksum, hsel, he]
  cases hn : e.next_hop with
  | none => simp [forwarded, compute_checksum]
  | some hop => simp [forwarded, compute_checksum]

theorem routeDatagram_of_drop (cdc : Codec) (tbl : List RouteEntry)
    (ifs : List AsyncNetworkInterface) (d : InternetDatagram)
    (h : routeDecision cdc tbl d = .ok none) : routeDatagram cdc tbl ifs d = .ok (ifs, []) := by
  unfold routeDatagram
  rw [h]

theorem routeDatagram_of_forward (cdc : Codec) (tbl : List RouteEntry)
    (ifs : List AsyncNetworkInterface) (d : InternetDatagram) (c : SendCall)
    (a : AsyncNetworkInterface) (h : routeDecision cdc tbl d = .ok (some c))
    (ha : Router.interface ifs c.interface_num = some a) :
    routeDatagram cdc tbl ifs d =
      .ok (ifs.set c.interface_num
            { a with nif := send_datagram cdc a.nif c.dgram c.next_hop }, [c]) := by
  unfold routeDatagram
  rw [h]
  simp only [ha]

theorem routeDatagram_calls_of_forward (cdc : Codec) (tbl : List RouteEntry)
    (ifs : List AsyncNetworkInterface) (d : InternetDatagram) (c : SendCall)
    (h : routeDecision cdc tbl d = .ok (some c)) (ifs1 : List AsyncNetworkInterface)
    (calls : List SendCall) (hr : routeDatagram cdc tbl ifs d = .ok (ifs1, calls)) :
    calls = [c] := by
  unfold routeDatagram at hr
  rw [h] at hr
  simp only [] at hr
  cases hi : Router.interface ifs c.interface_num with
  | none => rw [hi] at hr; cases hr
  | some a =>
    rw [hi] at hr
    simp only [Except.ok.injEq, Prod.mk.injEq] at hr
    exact hr.2.symm

/-- C2. TTL boundary: a datagram arriving with TTL 0 or 1 is dropped, `route` makes no
`send_datagram` call for it and leaves every interface as it was; a datagram with TTL
`t ≥ 2` for which some route matches is handed to `send_datagram` with TTL `t - 1`, the
checksum recomputed over the header with the decremented TTL, and every other header
field and the payload unchanged. -/
theorem route_ttl_boundary (cdc : Codec) (tbl : List RouteEntry)
    (ifs : List AsyncNetworkInterface) (d : InternetDatagram) :
    (d.header.ttl = 0 ∨ d.header.ttl = 1 →
      routeDecision cdc tbl d = .ok none ∧ routeDatagram cdc tbl ifs d = .ok (ifs, [])) ∧
    (2 ≤ d.header.ttl → (∃ e ∈ tbl, matchesRoute e d.header.dst = true) →
      ∃ c : SendCall, routeDecision cdc tbl d = .ok (some c) ∧
        c.dgram.header.ttl = d.header.ttl - 1 ∧
        c.dgram.header.cksum = cdc.checksum { d.header with ttl := d.header.ttl - 1 } ∧
        c.dgram.header = compute_checksum cdc { d.header with ttl := d.header.ttl - 1 } ∧
        c.dgram.header.dst = d.header.dst ∧
        c.dgram.header.other = d.header.other ∧
        c.dgram.payload = d.payload ∧
        (∀ ifs1 calls, routeDatagram cdc tbl ifs d = .ok (ifs1, calls) → calls = [c]) ∧
        (∀ a, Router.interface ifs c.interface_num = some a →
          routeDatagram cdc tbl ifs d =
            .ok (ifs.set c.interface_num
                  { a with nif := send_datagram cdc a.nif c.dgram c.next_hop }, [c]))) := by
  constructor
  · intro h
    have hd := routeDecision_ttl_le_one cdc tbl d h
    exact ⟨hd, routeDatagram_of_drop cdc tbl ifs d hd⟩
  · intro httl hmatch
    obtain ⟨e0, he0, hm0⟩ := hmatch
    cases hs : scanTable tbl d.header.dst with
    | none =>
      have := (scanTable_none_iff tbl d.header.dst).mp hs e0 he0
      rw [this] at hm0
      exact absurd hm0 (by simp)
    | some j =>
      obtain ⟨e, he, _, _⟩ := scanTable_some tbl d.header.dst j hs
      have hdec := routeDecision_forward cdc tbl d j e httl hs he
      refine ⟨_, hdec, rfl, rfl, rfl, rfl, rfl, rfl, ?_, ?_⟩
      · intro ifs1 calls hr
        exact routeDatagram_calls_of_forward cdc tbl ifs d _ hdec ifs1 calls hr
      · intro a ha
        exact routeDatagram_of_forward cdc tbl ifs d _ a hdec ha

/-- Witness for C2: with the single route 10.0.0.0/8 on interface 0, a datagram for
10.1.2.3 with TTL 1 is dropped, and one with TTL 2 is handed on with TTL 1. -/
theorem route_ttl_boundary_witness :
    ((demoDgram 1 (ipv4 10 1 2 3)).header.ttl = 0 ∨ (demoDgram 1 (ipv4 10 1 2 3)).header.ttl = 1) ∧
    (routeDecision demoCodec [⟨ipv4 10 0 0 0, 8, none, 0⟩] (demoDgram 1 (ipv4 10 1 2 3)) = .ok none ∧
      routeDatagram demoCodec [⟨ipv4 10 0 0 0, 8, none, 0⟩] [demoAsync] (demoDgram 1 (ipv4 10 1 2 3))
        = .ok ([demoAsync], [])) ∧
    2 ≤ (demoDgram 2 (ipv4 10 1 2 3)).header.ttl ∧
    (∃ e ∈ [(⟨ipv4 10 0 0 0, 8, none, 0⟩ : RouteEntry)],
      matchesRoute e (demoDgram 2 (ipv4 10 1 2 3)).header.dst = true) ∧
    (∃ c : SendCall,
      routeDecision demoCodec [⟨ipv4 10 0 0 0, 8, none, 0⟩] (demoDgram 2 (ipv4 10 1 2 3))
        = .ok (some c) ∧ c.dgram.header.ttl = 1) :=
  have hm : ∃ e ∈ [(⟨ipv4 10 0 0 0, 8, none, 0⟩ : RouteEntry)],
      matchesRoute e (demoDgram 2 (ipv4 10 1 2 3)).header.dst = true := by decide
  ⟨Or.inr rfl,
    (route_ttl_boundary demoCodec [⟨ipv4 10 0 0 0, 8, none, 0⟩] [demoAsync]
      (demoDgram 1 (ipv4 10 1 2 3))).1 (Or.inr rfl),
    by decide, hm,
    ((route_ttl_boundary demoCodec [⟨ipv4 10 0 0 0, 8, none, 0⟩] [demoAsync]
      (demoDgram 2 (ipv4 10 1 2 3))).2 (by decide) hm).elim
        (fun c h => ⟨c, h.1, h.2.1⟩)⟩

/-- C3 fails as stated: with the default route pointing at interface 5 and a single
interface, a datagram with TTL 64 survives the TTL check and selects entry 0, yet the
pass stops at the interface lookup and `send_datagram` is called on no interface. -/
theorem route_next_hop_choice_counterexample :
    2 ≤ (demoDgram 64 (ipv4 10 1 2 3)).header.ttl ∧
    scanTable [⟨0, 0, none, 5⟩] (demoDgram 64 (ipv4 10 1 2 3)).header.dst = some 0 ∧
    ([⟨0, 0, none, 5⟩] : List RouteEntry)[0]? = some ⟨0, 0, none, 5⟩ ∧
    routeDatagram demoCodec [⟨0, 0, none, 5⟩] [demoAsync] (demoDgram 64 (ipv4 10 1 2 3))
      = .error (.interface_index 5) ∧
    ¬ ∃ ifs1 calls, routeDatagram demoCodec [⟨0, 0, none, 5⟩] [demoAsync]
        (demoDgram 64 (ipv4 10 1 2 3)) = .ok (ifs1, calls) := by
  have hr : routeDatagram demoCodec [⟨0, 0, none, 5⟩] [demoAsync] (demoDgram 64 (ipv4 10 1 2 3))
      = .error (.interface_index 5) := by
    have hdec := routeDecision_forward demoCodec [⟨0, 0, none, 5⟩] (demoDgram 64 (ipv4 10 1 2 3))
      0 ⟨0, 0, none, 5⟩ (by decide) (by decide) rfl
    unfold routeDatagram
    rw [hdec]
    rfl
  refine ⟨by decide, by decide, rfl, hr, ?_⟩
  rintro ⟨ifs1, calls, h⟩
  rw [hr] at h
  cases h

/-- C3, amended. Next-hop choice: for a datagram that survives the TTL check and selects
entry `e`, when `e.interface_num` is the index of an existing interface, `send_datagram`
is called exactly once, on that interface, with the decremented datagram and with
next-hop `e.next_hop` when present and the datagram's own destination otherwise; every
other interface is left as it was. -/
theorem route_next_hop_choice (cdc : Codec) (tbl : List RouteEntry)
    (ifs : List AsyncNetworkInterface) (d : InternetDatagram) (j : Nat) (e : RouteEntry)
    (a : AsyncNetworkInterface) (httl : 2 ≤ d.header.ttl)
    (hsel : scanTable tbl d.header.dst = some j) (he : tbl[j]? = some e)
    (ha : Router.interface ifs e.interface_num = some a) :
    ∃ hop : Nat,
      (∀ h, e.next_hop = some h → hop = h) ∧
      (e.next_hop = none → hop = d.header.dst) ∧
      routeDatagram cdc tbl ifs d =
        .ok (ifs.set e.interface_num { a with nif := send_datagram cdc a.nif (forwarded cdc d) hop },
             [⟨e.interface_num, forwarded cdc d, hop⟩]) ∧
      ∀ k, k ≠ e.interface_num →
        (ifs.set e.interface_num
          { a with nif := send_datagram cdc a.nif (forwarded cdc d) hop })[k]? = ifs[k]? := by
  refine ⟨e.next_hop.getD d.header.dst, ?_, ?_, ?_, ?_⟩
  · intro h hh
    rw [hh]
    rfl
  · intro hh
    rw [hh]
    rfl
  · exact routeDatagram_of_forward cdc tbl ifs d _ a
      (routeDecision_forward cdc tbl d j e httl hsel he) ha
  · intro k hk
    rw [List.getElem?_set_ne (Ne.symm hk)]

/-- Witness for C3: the direct route 10.0.0.0/8 on interface 0 sends a datagram for
10.1.2.3 towards 10.1.2.3 itself. -/
theorem route_next_hop_choice_witness :
    ∃ hop : Nat, hop = ipv4 10 1 2 3 ∧
      routeDatagram demoCodec [⟨ipv4 10 0 0 0, 8, none, 0⟩] [demoAsync]
          (demoDgram 64 (ipv4 10 1 2 3)) =
        .ok ([demoAsync].set 0
              { demoAsync with
                nif := send_datagram demoCodec demoAsync.nif
                  (forwarded demoCodec (demoDgram 64 (ipv4 10 1 2 3))) hop },
             [⟨0, forwarded demoCodec (demoDgram 64 (ipv4 10 1 2 3)), hop⟩]) :=
  (route_next_hop_choice demoCodec [⟨ipv4 10 0 0 0, 8, none, 0⟩] [demoAsync]
    (demoDgram 64 (ipv4 10 1 2 3)) 0 ⟨ipv4 10 0 0 0, 8, none, 0⟩ demoAsync
    (by decide) (by decide) rfl rfl).elim
      (fun hop h => ⟨hop, h.2.1 rfl, h.2.2.1⟩)

/-- C4. No-match drop: when no forwarding-table entry matches the destination of a
datagram (in particular when the table is empty), `route` makes no `send_datagram` call
for it, every interface is left exactly as it was, and the pass does not fail; run on an
interface whose receive queue holds just that datagram, the loop only pops it. -/
theorem route_no_match_drop (cdc : Codec) (tbl : List RouteEntry)
    (ifs : List AsyncNetworkInterface) (d : InternetDatagram)
    (h : ∀ e ∈ tbl, matchesRoute e d.header.dst = false) :
    routeDecision cdc tbl d = .ok none ∧
    routeDatagram cdc tbl ifs d = .ok (ifs, []) ∧
    routeDatagram cdc [] ifs d = .ok (ifs, []) ∧
    ∀ i a, ifs[i]? = some a → a.datagrams_in = [d] →
      routeLoop cdc tbl i 2 ifs = .ok (ifs.set i { a with datagrams_in := [] }, []) := by
  have hs : scanTable tbl d.header.dst = none := (scanTable_none_iff tbl d.header.dst).mpr h
  have hd := routeDecision_no_match cdc tbl d hs
  have hd0 : routeDecision cdc [] d = .ok none := routeDecision_no_match cdc [] d rfl
  refine ⟨hd, routeDatagram_of_drop cdc tbl ifs d hd, routeDatagram_of_drop cdc [] ifs d hd0, ?_⟩
  intro i a hia hq
  have hlt : i < ifs.length := by
    by_contra hge
    rw [List.getElem?_eq_none (by omega)] at hia
    cases hia
  have hset : (ifs.set i { a with datagrams_in := [] })[i]? =
      some { a with datagrams_in := [] } := by
    rw [List.getElem?_set_self hlt]
  simp only [routeLoop, hia, AsyncNetworkInterface.maybe_receive, hq,
    routeDatagram_of_drop cdc tbl _ d hd, hset, List.append_nil]

/-- Witness for C4: the only route is 10.0.0.0/8 and the datagram is for 192.168.0.1. -/
theorem route_no_match_drop_witness :
    (∀ e ∈ [(⟨ipv4 10 0 0 0, 8, none, 0⟩ : RouteEntry)],
      matchesRoute e (demoDgram 64 (ipv4 192 168 0 1)).header.dst = false) ∧
    routeDatagram demoCodec [⟨ipv4 10 0 0 0, 8, none, 0⟩] [demoAsync]
      (demoDgram 64 (ipv4 192 168 0 1)) = .ok ([demoAsync], []) :=
  have h : ∀ e ∈ [(⟨ipv4 10 0 0 0, 8, none, 0⟩ : RouteEntry)],
      matchesRoute e (demoDgram 64 (ipv4 192 168 0 1)).header.dst = false := by decide
  ⟨h, (route_no_match_drop demoCodec [⟨ipv4 10 0 0 0, 8, none, 0⟩] [demoAsync]
    (demoDgram 64 (ipv4 192 168 0 1)) h).2.1⟩

/-! ## Effect of the interface operations on each member -/

theorem flushQueue_eq (cdc : Codec) (s : NetworkInterface) (dst : EthernetAddress) :
    ∀ (queue : List InternetDatagram) (ready : List EthernetFrame),
      flushQueue cdc s dst queue ready = ([], ready ++ queue.map (ipv4Frame cdc s dst)) := by
  intro queue
  induction queue with
  | nil => intro ready; simp [flushQueue]
  | cons data queue ih => intro ready; simp [flushQueue, ih]

theorem recv_arp_ARP_table (cdc : Codec) (s : NetworkInterface) (m : ARPMessage) :
    (recv_arp cdc s m).ARP_table =
      Function.update s.ARP_table m.sender_ip_address
        (some { mac_addr := m.sender_ethernet_address, cache_time := s.curr_time }) := by
  unfold recv_arp
  split_ifs <;> simp only [] <;> split <;> rfl

theorem recv_arp_curr_time (cdc : Codec) (s : NetworkInterface) (m : ARPMessage) :
    (recv_arp cdc s m).curr_time = s.curr_time := by
  unfold recv_arp
  split_ifs <;> simp only [] <;> split <;> rfl

theorem recv_arp_ethernet_address (cdc : Codec) (s : NetworkInterface) (m : ARPMessage) :
    (recv_arp cdc s m).ethernet_address_ = s.ethernet_address_ := by
  unfold recv_arp
  split_ifs <;> simp only [] <;> split <;> rfl

theorem recv_arp_ip_address (cdc : Codec) (s : NetworkInterface) (m : ARPMessage) :
    (recv_arp cdc s m).ip_address_ = s.ip_address_ := by
  unfold recv_arp
  split_ifs <;> simp only [] <;> split <;> rfl

theorem recv_arp_wait_mac_queue (cdc : Codec) (s : NetworkInterface) (m : ARPMessage) (k : Nat) :
    (recv_arp cdc s m).wait_mac_queue k =
      if k = m.sender_ip_address then (s.wait_mac_queue k).map (fun _ => []) else
        s.wait_mac_queue k := by
  unfold recv_arp
  by_cases hk : k = m.sender_ip_address
  · subst hk
    split_ifs <;> simp only [] <;> split <;> simp_all [flushQueue_eq]
  · split_ifs <;> simp only [] <;> split <;> simp_all [Function.update_noteq]

theorem recv_arp_last_ARP_time (cdc : Codec) (s : NetworkInterface) (m : ARPMessage) (k : Nat) :
    (recv_arp cdc s m).last_ARP_time k =
      if k = m.sender_ip_address ∧ s.wait_mac_queue m.sender_ip_address ≠ none then none else
        s.last_ARP_time k := by
  unfold recv_arp
  by_cases hk : k = m.sender_ip_address
  · subst hk
    split_ifs <;> simp only [] <;> split <;> simp_all
  · split_ifs <;> simp only [] <;> split <;> simp_all [Function.update_noteq]

theorem recv_arp_ready_queue (cdc : Codec) (s : NetworkInterface) (m : ARPMessage) :
    (recv_arp cdc s m).ready_queue =
      s.ready_queue ++
        (if m.opcode = OPCODE_REQUEST ∧ m.target_ip_address = s.ip_address_ then
          [arpReplyFrame cdc s m] else []) ++
        (queueAt s.wait_mac_queue m.sender_ip_address).map
          (ipv4Frame cdc s m.sender_ethernet_address) := by
  unfold recv_arp queueAt
  split_ifs <;> simp only [] <;> split <;> simp_all [flushQueue_eq]

theorem recv_frame_of_sender_none (cdc : Codec) (s : NetworkInterface) (f : EthernetFrame)
    (h : arpSender cdc s.ethernet_address_ f = none) : (recv_frame cdc s f).2 = s := by
  unfold arpSender at h
  unfold recv_frame
  split_ifs at h ⊢ with h1 h2 h3
  · rfl
  · split <;> rfl
  · cases hp : cdc.parse_arp f.payload with
    | none => rfl
    | some m => rw [hp] at h; cases h
  · rfl

theorem recv_frame_of_sender_some (cdc : Codec) (s : NetworkInterface) (f : EthernetFrame)
    (k : Nat) (h : arpSender cdc s.ethernet_address_ f = some k) :
    ∃ m, cdc.parse_arp f.payload = some m ∧ m.sender_ip_address = k ∧
      (f.header.dst = ETHERNET_BROADCAST ∨ f.header.dst = s.ethernet_address_) ∧
      f.header.type = TYPE_ARP ∧
      recv_frame cdc s f = (none, recv_arp cdc s m) := by
  unfold arpSender at h
  unfold recv_frame
  split_ifs at h ⊢ with h1 h2 h3
  cases hp : cdc.parse_arp f.payload with
  | none => rw [hp] at h; cases h
  | some m =>
    rw [hp] at h
    simp only [Option.map_some', Option.some.injEq] at h
    refine ⟨m, rfl, h, ?_, h3, rfl⟩
    by_contra hc
    exact h1 ⟨fun e => hc (Or.inl e), fun e => hc (Or.inr e)⟩

theorem step_ethernet_address (cdc : Codec) (s : NetworkInterface) (op : Op) :
    (step cdc s op).ethernet_address_ = s.ethernet_address_ := by
  cases op with
  | send d n =>
    simp only [step, send_datagram]
    split
    · rfl
    · split <;> rfl
  | recv f =>
    simp only [step]
    cases h : arpSender cdc s.ethernet_address_ f with
    | none => rw [recv_frame_of_sender_none cdc s f h]
    | some k =>
      obtain ⟨m, _, _, _, _, hr⟩ := recv_frame_of_sender_some cdc s f k h
      rw [hr]
      exact recv_arp_ethernet_address cdc s m
  | tick ms => rfl
  | drain =>
    simp only [step, maybe_send]
    split <;> rfl

theorem step_curr_time_le (cdc : Codec) (s : NetworkInterface) (op : Op) :
    s.curr_time ≤ (step cdc s op).curr_time := by
  cases op with
  | send d n =>
    simp only [step, send_datagram]
    split
    · exact le_refl _
    · split <;> exact le_refl _
  | recv f =>
    simp only [step]
    cases h : arpSender cdc s.ethernet_address_ f with
    | none => rw [recv_frame_of_sender_none cdc s f h]
    | some k =>
      obtain ⟨m, _, _, _, _, hr⟩ := recv_frame_of_sender_some cdc s f k h
      rw [hr]
      exact le_of_eq (recv_arp_curr_time cdc s m).symm
  | tick ms => exact Nat.le_add_right _ _
  | drain =>
    simp only [step, maybe_send]
    split <;> exact le_refl _

theorem run_cons (cdc : Codec) (s : NetworkInterface) (op : Op) (ops : List Op) :
    run cdc s (op :: ops) = run cdc (step cdc s op) ops := rfl

theorem run_append (cdc : Codec) (s : NetworkInterface) (ops1 ops2 : List Op) :
    run cdc s (ops1 ++ ops2) = run cdc (run cdc s ops1) ops2 := by
  simp [run, List.foldl_append]

theorem run_curr_time_le (cdc : Codec) :
    ∀ (ops : List Op) (s : NetworkInterface), s.curr_time ≤ (run cdc s ops).curr_time := by
  intro ops
  induction ops with
  | nil => intro s; exact le_refl _
  | cons op ops ih =>
    intro s
    rw [run_cons]
    exact le_trans (step_curr_time_le cdc s op) (ih _)

theorem run_ethernet_address (cdc : Codec) :
    ∀ (ops : List Op) (s : NetworkInterface),
      (run cdc s ops).ethernet_address_ = s.ethernet_address_ := by
  intro ops
  induction ops with
  | nil => intro s; rfl
  | cons op ops ih =>
    intro s
    rw [run_cons, ih, step_ethernet_address]

/-! ## `send_datagram`, case by case -/

theorem send_datagram_hit (cdc : Codec) (s : NetworkInterface) (d : InternetDatagram)
    (n : Nat) (e : MacAddress) (h : s.ARP_table n = some e) :
    send_datagram cdc s d n =
      { s with ready_queue := s.ready_queue ++ [ipv4Frame cdc s e.mac_addr d] } := by
  unfold send_datagram
  rw [h]

theorem send_datagram_cold (cdc : Codec) (s : NetworkInterface) (d : InternetDatagram)
    (n : Nat) (hc : s.ARP_table n = none) (hm : s.last_ARP_time n = none) :
    send_datagram cdc s d n =
      { s with
        ready_queue := s.ready_queue ++ [arpRequestFrame cdc s n]
        last_ARP_time := Function.update s.last_ARP_time n (some s.curr_time)
        wait_mac_queue :=
          Function.update s.wait_mac_queue n (some (queueAt s.wait_mac_queue n ++ [d])) } := by
  unfold send_datagram
  rw [hc, hm]

theorem send_datagram_cold_members (cdc : Codec) (s : NetworkInterface) (d : InternetDatagram)
    (n : Nat) (hc : s.ARP_table n = none) (hm : s.last_ARP_time n = none) :
    (send_datagram cdc s d n).ready_queue = s.ready_queue ++ [arpRequestFrame cdc s n] ∧
    (send_datagram cdc s d n).last_ARP_time n = some s.curr_time ∧
    (send_datagram cdc s d n).wait_mac_queue n = some (queueAt s.wait_mac_queue n ++ [d]) := by
  rw [send_datagram_cold cdc s d n hc hm]
  simp

theorem send_datagram_throttled (cdc : Codec) (s : NetworkInterface) (d : InternetDatagram)
    (n t : Nat) (hc : s.ARP_table n = none) (hm : s.last_ARP_time n = some t) :
    send_datagram cdc s d n =
      { s with
        wait_mac_queue :=
          Function.update s.wait_mac_queue n (some (queueAt s.wait_mac_queue n ++ [d])) } := by
  unfold send_datagram
  rw [hc, hm]

theorem send_datagram_ARP_table (cdc : Codec) (s : NetworkInterface) (d : InternetDatagram)
    (n : Nat) : (send_datagram cdc s d n).ARP_table = s.ARP_table := by
  unfold send_datagram
  split
  · rfl
  · split <;> rfl

theorem send_datagram_curr_time (cdc : Codec) (s : NetworkInterface) (d : InternetDatagram)
    (n : Nat) : (send_datagram cdc s d n).curr_time = s.curr_time := by
  unfold send_datagram
  split
  · rfl
  · split <;> rfl

theorem send_datagram_other_marker (cdc : Codec) (s : NetworkInterface) (d : InternetDatagram)
    (n k : Nat) (hk : k ≠ n) :
    (send_datagram cdc s d n).last_ARP_time k = s.last_ARP_time k := by
  unfold send_datagram
  split
  · rfl
  · split
    · simp [Function.update_noteq hk]
    · rfl

theorem send_datagram_other_queue (cdc : Codec) (s : NetworkInterface) (d : InternetDatagram)
    (n k : Nat) (hk : k ≠ n) :
    (send_datagram cdc s d n).wait_mac_queue k = s.wait_mac_queue k := by
  unfold send_datagram
  split
  · rfl
  · split <;> simp [Function.update_noteq hk]

theorem maybe_send_members (s : NetworkInterface) :
    (maybe_send s).2.ARP_table = s.ARP_table ∧
    (maybe_send s).2.last_ARP_time = s.last_ARP_time ∧
    (maybe_send s).2.wait_mac_queue = s.wait_mac_queue ∧
    (maybe_send s).2.curr_time = s.curr_time := by
  unfold maybe_send
  split <;> exact ⟨rfl, rfl, rfl, rfl⟩

/-- Reception of anything but a resolution message from `n` leaves the cache entry, the
marker and the pending queue of `n`, and the clock, as they were. -/
theorem recv_frame_not_from (cdc : Codec) (s : NetworkInterface) (f : EthernetFrame) (n : Nat)
    (h : arpSender cdc s.ethernet_address_ f ≠ some n) :
    (recv_frame cdc s f).2.ARP_table n = s.ARP_table n ∧
    (recv_frame cdc s f).2.last_ARP_time n = s.last_ARP_time n ∧
    (recv_frame cdc s f).2.wait_mac_queue n = s.wait_mac_queue n ∧
    (recv_frame cdc s f).2.curr_time = s.curr_time := by
  cases hs : arpSender cdc s.ethernet_address_ f with
  | none =>
    rw [recv_frame_of_sender_none cdc s f hs]
    exact ⟨rfl, rfl, rfl, rfl⟩
  | some k =>
    obtain ⟨m, _, hmk, _, _, hr⟩ := recv_frame_of_sender_some cdc s f k hs
    have hne : n ≠ m.sender_ip_address := by
      intro e
      apply h
      rw [hs, ← hmk, e]
    rw [hr]
    refine ⟨?_, ?_, ?_, recv_arp_curr_time cdc s m⟩
    · rw [recv_arp_ARP_table, Function.update_noteq hne]
    · rw [recv_arp_last_ARP_time]
      simp [hne]
    · rw [recv_arp_wait_mac_queue]
      simp [hne]

/-! ## Warm cache -/

theorem warm_step (cdc : Codec) (n : Nat) (s : NetworkInterface) (op : Op) (b : Nat)
    (hw : ∃ e, s.ARP_table n = some e ∧ s.curr_time - e.cache_time ≤ b)
    (hb : b + tickSum [op] < 30000) :
    ∃ e, (step cdc s op).ARP_table n = some e ∧
      (step cdc s op).curr_time - e.cache_time ≤ b + tickSum [op] := by
  obtain ⟨e, he, hage⟩ := hw
  cases op with
  | send d k =>
    refine ⟨e, ?_, ?_⟩
    · simp only [step, send_datagram_ARP_table, he]
    · simp only [step, send_datagram_curr_time, tickSum]
      omega
  | recv f =>
    simp only [step, tickSum, Nat.add_zero]
    by_cases hs : arpSender cdc s.ethernet_address_ f = some n
    · obtain ⟨m, _, hmk, _, _, hr⟩ := recv_frame_of_sender_some cdc s f n hs
      rw [hr]
      refine ⟨⟨m.sender_ethernet_address, s.curr_time⟩, ?_, ?_⟩
      · rw [recv_arp_ARP_table, ← hmk, Function.update_same]
      · rw [recv_arp_curr_time]
        simp
    · obtain ⟨h1, _, _, h4⟩ := recv_frame_not_from cdc s f n hs
      exact ⟨e, by rw [h1, he], by rw [h4]; exact hage⟩
  | tick ms =>
    simp only [tickSum, Nat.add_zero] at hb ⊢
    refine ⟨e, ?_, ?_⟩
    · simp only [step, tick, eraseIf, he]
      rw [if_neg]
      simp only [decide_eq_true_eq, not_le]
      omega
    · simp only [step, tick]
      omega
  | drain =>
    obtain ⟨h1, _, _, h4⟩ := maybe_send_members s
    refine ⟨e, ?_, ?_⟩
    · simp only [step, h1, he]
    · simp only [step, h4, tickSum]
      omega

theorem tickSum_cons (op : Op) (ops : List Op) :
    tickSum (op :: ops) = tickSum [op] + tickSum ops := by
  cases op <;> simp [tickSum]

theorem warm_run (cdc : Codec) (n : Nat) :
    ∀ (ops : List Op) (s : NetworkInterface) (b : Nat),
      (∃ e, s.ARP_table n = some e ∧ s.curr_time - e.cache_time ≤ b) →
      b + tickSum ops < 30000 →
      ∃ e, (run cdc s ops).ARP_table n = some e := by
  intro ops
  induction ops with
  | nil =>
    intro s b hw _
    obtain ⟨e, he, _⟩ := hw
    exact ⟨e, he⟩
  | cons op ops ih =>
    intro s b hw hb
    rw [tickSum_cons] at hb
    rw [run_cons]
    exact ih (step cdc s op) (b + tickSum [op]) (warm_step cdc n s op b hw (by omega)) (by omega)

/-- C5. Immediate send on warm cache: after the interface has processed a resolution
message from `n`, and then any sequence of `send_datagram`, `recv_frame`, `maybe_send` and
`tick` calls whose ticks sum to less than 30,000 ms, the cache still has an entry for `n`
and `send_datagram(d, n)` appends exactly one frame to the outbound queue: an IPv4 frame
(not an ARP frame) from the own link address to the cached link address carrying
`serialize(d)`; the cache, the markers, the pending queues and the clock are unchanged. -/
theorem warm_cache_send (cdc : Codec) (s0 : NetworkInterface) (f : EthernetFrame) (n : Nat)
    (ops : List Op) (d : InternetDatagram)
    (hf : arpSender cdc s0.ethernet_address_ f = some n) (hticks : tickSum ops < 30000) :
    ∃ e : MacAddress, (run cdc (recv_frame cdc s0 f).2 ops).ARP_table n = some e ∧
      send_datagram cdc (run cdc (recv_frame cdc s0 f).2 ops) d n =
        { run cdc (recv_frame cdc s0 f).2 ops with
          ready_queue := (run cdc (recv_frame cdc s0 f).2 ops).ready_queue ++
            [⟨⟨e.mac_addr, s0.ethernet_address_, TYPE_IPv4⟩, cdc.serialize_dgram d⟩] } ∧
      TYPE_IPv4 ≠ TYPE_ARP ∧
      (send_datagram cdc (run cdc (recv_frame cdc s0 f).2 ops) d n).ARP_table =
        (run cdc (recv_frame cdc s0 f).2 ops).ARP_table ∧
      (send_datagram cdc (run cdc (recv_frame cdc s0 f).2 ops) d n).last_ARP_time =
        (run cdc (recv_frame cdc s0 f).2 ops).last_ARP_time ∧
      (send_datagram cdc (run cdc (recv_frame cdc s0 f).2 ops) d n).wait_mac_queue =
        (run cdc (recv_frame cdc s0 f).2 ops).wait_mac_queue := by
  obtain ⟨m, _, hmk, _, _, hr⟩ := recv_frame_of_sender_some cdc s0 f n hf
  have hw : ∃ e, (recv_frame cdc s0 f).2.ARP_table n = some e ∧
      (recv_frame cdc s0 f).2.curr_time - e.cache_time ≤ 0 := by
    rw [hr]
    refine ⟨⟨m.sender_ethernet_address, s0.curr_time⟩, ?_, ?_⟩
    · rw [recv_arp_ARP_table, ← hmk, Function.update_same]
    · rw [recv_arp_curr_time]
      simp
  obtain ⟨e, he⟩ := warm_run cdc n ops _ 0 hw (by omega)
  have heth : (run cdc (recv_frame cdc s0 f).2 ops).ethernet_address_ = s0.ethernet_address_ := by
    rw [run_ethernet_address, hr]
    exact recv_arp_ethernet_address cdc s0 m
  have hsend := send_datagram_hit cdc _ d n e he
  have hfr : ipv4Frame cdc (run cdc (recv_frame cdc s0 f).2 ops) e.mac_addr d =
      ⟨⟨e.mac_addr, s0.ethernet_address_, TYPE_IPv4⟩, cdc.serialize_dgram d⟩ := by
    rw [ipv4Frame, heth]
  refine ⟨e, he, ?_, by decide, ?_, ?_, ?_⟩
  · rw [hsend, hfr]
  · rw [hsend]
  · rw [hsend]
  · rw [hsend]

/-- Witness for C5: 10.0.0.7 answers with link address 0x02..07; 29,999 ms and one other
send later, a datagram for 10.0.0.7 still goes out at once. -/
theorem warm_cache_send_witness :
    arpSender demoCodec demoIface.ethernet_address_
        (demoReplyFrame 0x020000000001 0x020000000007 (ipv4 10 0 0 7) (ipv4 10 0 0 1))
      = some (ipv4 10 0 0 7) ∧
    tickSum [Op.tick 29999, Op.send (demoDgram 9 (ipv4 10 0 0 8)) (ipv4 10 0 0 8)] < 30000 ∧
    ∃ e : MacAddress,
      (run demoCodec (recv_frame demoCodec demoIface
          (demoReplyFrame 0x020000000001 0x020000000007 (ipv4 10 0 0 7) (ipv4 10 0 0 1))).2
        [Op.tick 29999, Op.send (demoDgram 9 (ipv4 10 0 0 8)) (ipv4 10 0 0 8)]).ARP_table
          (ipv4 10 0 0 7) = some e :=
  have hf : arpSender demoCodec demoIface.ethernet_address_
        (demoReplyFrame 0x020000000001 0x020000000007 (ipv4 10 0 0 7) (ipv4 10 0 0 1))
      = some (ipv4 10 0 0 7) := by decide
  have ht : tickSum [Op.tick 29999, Op.send (demoDgram 9 (ipv4 10 0 0 8)) (ipv4 10 0 0 8)]
      < 30000 := by decide
  ⟨hf, ht,
    (warm_cache_send demoCodec demoIface _ (ipv4 10 0 0 7) _ (demoDgram 64 (ipv4 10 0 0 7))
      hf ht).elim (fun e h => ⟨e, h.1⟩)⟩

/-- C6. Cold send: when `next_hop` has neither a cache entry nor a marker,
`send_datagram(d, next_hop)` appends exactly one frame to the outbound queue, a broadcast
ARP frame from the own link address carrying a request (sender: own addresses, target:
`next_hop`); stamps a marker for `next_hop` with the current clock; appends `d` at the
tail of the pending queue of `next_hop`; and leaves the cache, the clock and every other
marker and pending queue unchanged. -/
theorem cold_send (cdc : Codec) (s : NetworkInterface) (d : InternetDatagram) (n : Nat)
    (hc : s.ARP_table n = none) (hm : s.last_ARP_time n = none) :
    (send_datagram cdc s d n).ready_queue = s.ready_queue ++
      [⟨⟨ETHERNET_BROADCAST, s.ethernet_address_, TYPE_ARP⟩, cdc.serialize_arp (arpRequest s n)⟩] ∧
    (arpRequest s n).opcode = OPCODE_REQUEST ∧
    (arpRequest s n).sender_ip_address = s.ip_address_ ∧
    (arpRequest s n).sender_ethernet_address = s.ethernet_address_ ∧
    (arpRequest s n).target_ip_address = n ∧
    (send_datagram cdc s d n).last_ARP_time n = some s.curr_time ∧
    (send_datagram cdc s d n).wait_mac_queue n = some (queueAt s.wait_mac_queue n ++ [d]) ∧
    (send_datagram cdc s d n).ARP_table = s.ARP_table ∧
    (send_datagram cdc s d n).curr_time = s.curr_time ∧
    (∀ k, k ≠ n → (send_datagram cdc s d n).last_ARP_time k = s.last_ARP_time k) ∧
    (∀ k, k ≠ n → (send_datagram cdc s d n).wait_mac_queue k = s.wait_mac_queue k) := by
  obtain ⟨k1, k2, k3⟩ := send_datagram_cold_members cdc s d n hc hm
  exact ⟨k1, rfl, rfl, rfl, rfl, k2, k3, send_datagram_ARP_table cdc s d n,
    send_datagram_curr_time cdc s d n, fun k hk => send_datagram_other_marker cdc s d n k hk,
    fun k hk => send_datagram_other_queue cdc s d n k hk⟩

/-- Witness for C6: the first send of a fresh interface. -/
theorem cold_send_witness :
    demoIface.ARP_table (ipv4 10 0 0 7) = none ∧ demoIface.last_ARP_time (ipv4 10 0 0 7) = none ∧
    (send_datagram demoCodec demoIface (demoDgram 64 (ipv4 10 0 0 7)) (ipv4 10 0 0 7)).ready_queue
      = [⟨⟨ETHERNET_BROADCAST, 0x020000000001, TYPE_ARP⟩,
          [OPCODE_REQUEST, 0x020000000001, ipv4 10 0 0 1, 0, ipv4 10 0 0 7]⟩] ∧
    (send_datagram demoCodec demoIface (demoDgram 64 (ipv4 10 0 0 7)) (ipv4 10 0 0 7)).wait_mac_queue
      (ipv4 10 0 0 7) = some [demoDgram 64 (ipv4 10 0 0 7)] :=
  ⟨rfl, rfl,
    (cold_send demoCodec demoIface (demoDgram 64 (ipv4 10 0 0 7)) (ipv4 10 0 0 7) rfl rfl).1,
    (cold_send demoCodec demoIface (demoDgram 64 (ipv4 10 0 0 7)) (ipv4 10 0 0 7) rfl rfl).2.2.2.2.2.2.1⟩

/-! ## Throttled broadcast -/

theorem tickSum_append (ops1 ops2 : List Op) :
    tickSum (ops1 ++ ops2) = tickSum ops1 + tickSum ops2 := by
  induction ops1 with
  | nil => simp [tickSum]
  | cons op ops ih =>
    rw [List.cons_append, tickSum_cons, tickSum_cons op ops, ih]
    omega

theorem throttle_run (cdc : Codec) (n : Nat) :
    ∀ (ops : List Op) (s : NetworkInterface) (b : Nat),
      s.ARP_table n = none →
      (∃ t, s.last_ARP_time n = some t ∧ s.curr_time - t ≤ b) →
      (∀ op ∈ ops, Op.sendToOrTick n op) →
      b + tickSum ops < 5000 →
      (run cdc s ops).ARP_table n = none ∧
      (∃ t, (run cdc s ops).last_ARP_time n = some t) ∧
      (run cdc s ops).ready_queue = s.ready_queue ∧
      queueAt (run cdc s ops).wait_mac_queue n = queueAt s.wait_mac_queue n ++ sentTo n ops := by
  intro ops
  induction ops with
  | nil =>
    intro s b hc hm _ _
    obtain ⟨t, ht, _⟩ := hm
    exact ⟨hc, ⟨t, ht⟩, rfl, by simp [sentTo, run]⟩
  | cons op ops ih =>
    intro s b hc hm hops hb
    obtain ⟨t, ht, hage⟩ := hm
    have hop := hops op (List.mem_cons_self _ _)
    have hrest : ∀ o ∈ ops, Op.sendToOrTick n o := fun o ho => hops o (List.mem_cons_of_mem _ ho)
    rw [tickSum_cons] at hb
    rw [run_cons]
    cases op with
    | send d k =>
      have hk : k = n := hop
      subst hk
      have hs := send_datagram_throttled cdc s d k t hc ht
      have hstep : step cdc s (Op.send d k) = send_datagram cdc s d k := rfl
      obtain ⟨h1, h2, h3, h4⟩ := ih (step cdc s (Op.send d k)) b
        (by rw [hstep, hs]; exact hc)
        ⟨t, by rw [hstep, hs]; exact ht, by rw [hstep, hs]; exact hage⟩ hrest
        (by simp only [tickSum] at hb; omega)
      refine ⟨h1, h2, ?_, ?_⟩
      · rw [h3, hstep, hs]
      · rw [h4, hstep, hs]
        simp [queueAt, sentTo]
    | tick ms =>
      simp only [tickSum, Nat.add_zero] at hb
      have hstep : step cdc s (Op.tick ms) = tick s ms := rfl
      have hkeep : (tick s ms).last_ARP_time n = some t := by
        simp only [tick, eraseIf, ht]
        rw [if_neg]
        simp only [decide_eq_true_eq, not_le]
        omega
      have hcache : (tick s ms).ARP_table n = none := by
        simp only [tick, eraseIf, hc]
      obtain ⟨h1, h2, h3, h4⟩ := ih (step cdc s (Op.tick ms)) (b + ms)
        (by rw [hstep]; exact hcache)
        ⟨t, by rw [hstep]; exact hkeep, by rw [hstep]; simp only [tick]; omega⟩ hrest
        (by omega)
      refine ⟨h1, h2, ?_, ?_⟩
      · rw [h3, hstep]
        rfl
      · rw [h4, hstep]
        simp [sentTo, tick]
    | recv f => exact absurd hop (by simp [Op.sendToOrTick])
    | drain => exact absurd hop (by simp [Op.sendToOrTick])

/-- C7. Throttled broadcast: from a state in which `n` has neither a cache entry nor a
marker, let `send_datagram(d1, n)` be followed by any sequence of further sends to `n`
and ticks summing to less than 5,000 ms. The first send appends one broadcast ARP
request for `n`; the outbound queue is the same after the whole sequence, so that this
is the only request; each later send appends nothing to the outbound queue; and the
pending queue of `n` ends with `d1` followed by the later datagrams in call order. -/
theorem throttled_broadcast (cdc : Codec) (s : NetworkInterface) (n : Nat)
    (d1 : InternetDatagram) (ops : List Op)
    (hc : s.ARP_table n = none) (hm : s.last_ARP_time n = none)
    (hops : ∀ op ∈ ops, Op.sendToOrTick n op) (ht : tickSum ops < 5000) :
    (send_datagram cdc s d1 n).ready_queue = s.ready_queue ++ [arpRequestFrame cdc s n] ∧
    (arpRequestFrame cdc s n).header = ⟨ETHERNET_BROADCAST, s.ethernet_address_, TYPE_ARP⟩ ∧
    (arpRequestFrame cdc s n).payload =
      cdc.serialize_arp ⟨OPCODE_REQUEST, s.ethernet_address_, s.ip_address_, 0, n⟩ ∧
    (run cdc (send_datagram cdc s d1 n) ops).ready_queue =
      s.ready_queue ++ [arpRequestFrame cdc s n] ∧
    (∀ pre d suf, ops = pre ++ Op.send d n :: suf →
      (send_datagram cdc (run cdc (send_datagram cdc s d1 n) pre) d n).ready_queue =
        s.ready_queue ++ [arpRequestFrame cdc s n]) ∧
    queueAt (run cdc (send_datagram cdc s d1 n) ops).wait_mac_queue n =
      queueAt s.wait_mac_queue n ++ d1 :: sentTo n ops := by
  have hcold := send_datagram_cold cdc s d1 n hc hm
  have h1c : (send_datagram cdc s d1 n).ARP_table n = none := by rw [hcold]; exact hc
  have h1m : ∃ t, (send_datagram cdc s d1 n).last_ARP_time n = some t ∧
      (send_datagram cdc s d1 n).curr_time - t ≤ 0 :=
    ⟨s.curr_time, by rw [hcold]; simp, by rw [hcold]; simp⟩
  have h1r : (send_datagram cdc s d1 n).ready_queue = s.ready_queue ++ [arpRequestFrame cdc s n] := by
    rw [hcold]
  have h1q : queueAt (send_datagram cdc s d1 n).wait_mac_queue n =
      queueAt s.wait_mac_queue n ++ [d1] := by
    rw [hcold]
    simp [queueAt]
  obtain ⟨_, _, h3, h4⟩ := throttle_run cdc n ops _ 0 h1c h1m hops (by omega)
  refine ⟨h1r, rfl, rfl, by rw [h3, h1r], ?_, by rw [h4, h1q]; simp⟩
  intro pre d suf hsplit
  have hpre : ∀ op ∈ pre, Op.sendToOrTick n op := by
    intro op hop
    exact hops op (by rw [hsplit]; exact List.mem_append_left _ hop)
  have htp : tickSum pre ≤ tickSum ops := by
    rw [hsplit, tickSum_append]
    omega
  obtain ⟨p1, ⟨t, p2⟩, p3, _⟩ := throttle_run cdc n pre _ 0 h1c h1m hpre (by omega)
  rw [send_datagram_throttled cdc _ d n t p1 p2]
  simp only []
  rw [p3, h1r]

/-- Witness for C7: three sends to 10.0.0.7 within 4,999 ms on a fresh interface. -/
theorem throttled_broadcast_witness :
    (∀ op ∈ [Op.tick 2000, Op.send (demoDgram 2 (ipv4 10 0 0 7)) (ipv4 10 0 0 7), Op.tick 2999,
        Op.send (demoDgram 3 (ipv4 10 0 0 7)) (ipv4 10 0 0 7)], Op.sendToOrTick (ipv4 10 0 0 7) op) ∧
    tickSum [Op.tick 2000, Op.send (demoDgram 2 (ipv4 10 0 0 7)) (ipv4 10 0 0 7), Op.tick 2999,
        Op.send (demoDgram 3 (ipv4 10 0 0 7)) (ipv4 10 0 0 7)] < 5000 ∧
    (run demoCodec (send_datagram demoCodec demoIface (demoDgram 1 (ipv4 10 0 0 7)) (ipv4 10 0 0 7))
        [Op.tick 2000, Op.send (demoDgram 2 (ipv4 10 0 0 7)) (ipv4 10 0 0 7), Op.tick 2999,
          Op.send (demoDgram 3 (ipv4 10 0 0 7)) (ipv4 10 0 0 7)]).ready_queue
      = [arpRequestFrame demoCodec demoIface (ipv4 10 0 0 7)] ∧
    queueAt (run demoCodec
        (send_datagram demoCodec demoIface (demoDgram 1 (ipv4 10 0 0 7)) (ipv4 10 0 0 7))
        [Op.tick 2000, Op.send (demoDgram 2 (ipv4 10 0 0 7)) (ipv4 10 0 0 7), Op.tick 2999,
          Op.send (demoDgram 3 (ipv4 10 0 0 7)) (ipv4 10 0 0 7)]).wait_mac_queue (ipv4 10 0 0 7)
      = [demoDgram 1 (ipv4 10 0 0 7), demoDgram 2 (ipv4 10 0 0 7), demoDgram 3 (ipv4 10 0 0 7)] :=
  have hops : ∀ op ∈ [Op.tick 2000, Op.send (demoDgram 2 (ipv4 10 0 0 7)) (ipv4 10 0 0 7),
      Op.tick 2999, Op.send (demoDgram 3 (ipv4 10 0 0 7)) (ipv4 10 0 0 7)],
      Op.sendToOrTick (ipv4 10 0 0 7) op := by
    intro op hop
    simp only [List.mem_cons, List.mem_singleton, List.not_mem_nil, or_false] at hop
    rcases hop with h | h | h | h <;> subst h <;> simp [Op.sendToOrTick]
  have ht : tickSum [Op.tick 2000, Op.send (demoDgram 2 (ipv4 10 0 0 7)) (ipv4 10 0 0 7),
      Op.tick 2999, Op.send (demoDgram 3 (ipv4 10 0 0 7)) (ipv4 10 0 0 7)] < 5000 := by decide
  ⟨hops, ht,
    (throttled_broadcast demoCodec demoIface (ipv4 10 0 0 7) (demoDgram 1 (ipv4 10 0 0 7)) _
      rfl rfl hops ht).2.2.2.1,
    (throttled_broadcast demoCodec demoIface (ipv4 10 0 0 7) (demoDgram 1 (ipv4 10 0 0 7)) _
      rfl rfl hops ht).2.2.2.2.2⟩

/-! ## Flush on resolution -/

/-- C10. FIFO flush on resolution: when a frame addressed to this interface (own or
broadcast link address) of type ARP decodes to a message with sender network address `S`
and sender link address `E`, and the pending queue of `S` holds `d_1, ..., d_k`, then
after `recv_frame` the outbound queue is its previous content, then the ARP reply if one
is due, then the `k` IPv4 frames from the own link address to `E` carrying
`serialize(d_1), ..., serialize(d_k)` in that order; the pending queue of `S` is empty;
the pending queue of every other address is unchanged; nothing is returned. -/
theorem flush_on_resolution (cdc : Codec) (s : NetworkInterface) (f : EthernetFrame)
    (m : ARPMessage)
    (hdst : f.header.dst = ETHERNET_BROADCAST ∨ f.header.dst = s.ethernet_address_)
    (htype : f.header.type = TYPE_ARP) (hparse : cdc.parse_arp f.payload = some m) :
    (recv_frame cdc s f).1 = none ∧
    (recv_frame cdc s f).2.ready_queue =
      s.ready_queue ++
        (if m.opcode = OPCODE_REQUEST ∧ m.target_ip_address = s.ip_address_ then
          [arpReplyFrame cdc s m] else []) ++
        (queueAt s.wait_mac_queue m.sender_ip_address).map
          (fun d => ⟨⟨m.sender_ethernet_address, s.ethernet_address_, TYPE_IPv4⟩,
            cdc.serialize_dgram d⟩) ∧
    queueAt (recv_frame cdc s f).2.wait_mac_queue m.sender_ip_address = [] ∧
    (∀ k, k ≠ m.sender_ip_address →
      (recv_frame cdc s f).2.wait_mac_queue k = s.wait_mac_queue k) := by
  have hsender : arpSender cdc s.ethernet_address_ f = some m.sender_ip_address := by
    unfold arpSender
    have h1 : ¬ (f.header.dst ≠ ETHERNET_BROADCAST ∧ f.header.dst ≠ s.ethernet_address_) := by
      rintro ⟨ha, hb⟩
      rcases hdst with h | h
      · exact ha h
      · exact hb h
    have h2 : ¬ f.header.type = TYPE_IPv4 := by
      rw [htype]
      decide
    rw [if_neg h1, if_neg h2, if_pos htype, hparse]
    rfl
  obtain ⟨m1, hp1, _, _, _, hr⟩ := recv_frame_of_sender_some cdc s f _ hsender
  rw [hparse] at hp1
  cases hp1
  rw [hr]
  refine ⟨rfl, ?_, ?_, ?_⟩
  · simp only []
    rw [recv_arp_ready_queue]
    rfl
  · simp only [queueAt]
    rw [recv_arp_wait_mac_queue]
    simp only [if_true]
    cases s.wait_mac_queue m.sender_ip_address <;> rfl
  · intro k hk
    simp only []
    rw [recv_arp_wait_mac_queue, if_neg hk]

/-- Witness for C10: two datagrams wait for 10.0.0.7 when its reply arrives. -/
theorem flush_on_resolution_witness :
    ((demoReplyFrame 0x020000000001 0x020000000007 (ipv4 10 0 0 7) (ipv4 10 0 0 1)).header.dst
        = ETHERNET_BROADCAST ∨
      (demoReplyFrame 0x020000000001 0x020000000007 (ipv4 10 0 0 7) (ipv4 10 0 0 1)).header.dst
        = (run demoCodec demoIface
            [Op.send (demoDgram 1 (ipv4 10 0 0 7)) (ipv4 10 0 0 7),
             Op.send (demoDgram 2 (ipv4 10 0 0 7)) (ipv4 10 0 0 7), Op.drain]).ethernet_address_) ∧
    (recv_frame demoCodec
        (run demoCodec demoIface
            [Op.send (demoDgram 1 (ipv4 10 0 0 7)) (ipv4 10 0 0 7),
             Op.send (demoDgram 2 (ipv4 10 0 0 7)) (ipv4 10 0 0 7), Op.drain])
        (demoReplyFrame 0x020000000001 0x020000000007 (ipv4 10 0 0 7) (ipv4 10 0 0 1))).2.ready_queue
      = [⟨⟨0x020000000007, 0x020000000001, TYPE_IPv4⟩,
            demoCodec.serialize_dgram (demoDgram 1 (ipv4 10 0 0 7))⟩,
         ⟨⟨0x020000000007, 0x020000000001, TYPE_IPv4⟩,
            demoCodec.serialize_dgram (demoDgram 2 (ipv4 10 0 0 7))⟩] :=
  ⟨Or.inr rfl,
    (flush_on_resolution demoCodec
      (run demoCodec demoIface
        [Op.send (demoDgram 1 (ipv4 10 0 0 7)) (ipv4 10 0 0 7),
         Op.send (demoDgram 2 (ipv4 10 0 0 7)) (ipv4 10 0 0 7), Op.drain])
      (demoReplyFrame 0x020000000001 0x020000000007 (ipv4 10 0 0 7) (ipv4 10 0 0 1))
      ⟨OPCODE_REPLY, 0x020000000007, ipv4 10 0 0 7, 0x020000000001, ipv4 10 0 0 1⟩
      (Or.inr rfl) rfl rfl).2.1⟩

/-! ## Runs without a resolution message from `n` -/

theorem tick_ARP_table_none (s : NetworkInterface) (ms n : Nat) (h : s.ARP_table n = none) :
    (tick s ms).ARP_table n = none := by
  simp only [tick, eraseIf, h]

theorem tick_last_ARP_time_none (s : NetworkInterface) (ms n : Nat)
    (h : s.last_ARP_time n = none) : (tick s ms).last_ARP_time n = none := by
  simp only [tick, eraseIf, h]

/-- While a marker stamped `T` is younger than 5,000 ms and no resolution message from
`n` arrives, `n` stays uncached, the marker stays, and sends to `n` only queue. -/
theorem pending_run (cdc : Codec) (me : EthernetAddress) (n T : Nat) :
    ∀ (ops : List Op) (s : NetworkInterface),
      s.ethernet_address_ = me →
      s.ARP_table n = none →
      s.last_ARP_time n = some T →
      (∀ op ∈ ops, Op.notFrom cdc me n op) →
      (run cdc s ops).curr_time < T + 5000 →
      (run cdc s ops).ethernet_address_ = me ∧
      (run cdc s ops).ARP_table n = none ∧
      (run cdc s ops).last_ARP_time n = some T ∧
      queueAt (run cdc s ops).wait_mac_queue n = queueAt s.wait_mac_queue n ++ sentTo n ops := by
  intro ops
  induction ops with
  | nil =>
    intro s hme hc hm _ _
    exact ⟨hme, hc, hm, by simp [sentTo, run]⟩
  | cons op ops ih =>
    intro s hme hc hm hops hlt
    have hop := hops op (List.mem_cons_self _ _)
    have hrest : ∀ o ∈ ops, Op.notFrom cdc me n o := fun o ho => hops o (List.mem_cons_of_mem _ ho)
    rw [run_cons] at hlt ⊢
    have hme1 : (step cdc s op).ethernet_address_ = me := by
      rw [step_ethernet_address, hme]
    have hmono := run_curr_time_le cdc ops (step cdc s op)
    cases op with
    | send d k =>
      have hstep : step cdc s (Op.send d k) = send_datagram cdc s d k := rfl
      by_cases hk : k = n
      · subst hk
        have hs := send_datagram_throttled cdc s d k T hc hm
        obtain ⟨h0, h1, h2, h4⟩ := ih (step cdc s (Op.send d k)) hme1
          (by rw [hstep, hs]; exact hc) (by rw [hstep, hs]; exact hm) hrest hlt
        refine ⟨h0, h1, h2, ?_⟩
        rw [h4, hstep, hs]
        simp [queueAt, sentTo]
      · have hne : n ≠ k := fun e => hk e.symm
        obtain ⟨h0, h1, h2, h4⟩ := ih (step cdc s (Op.send d k)) hme1
          (by rw [hstep, send_datagram_ARP_table]; exact hc)
          (by rw [hstep, send_datagram_other_marker cdc s d k n hne]; exact hm) hrest hlt
        refine ⟨h0, h1, h2, ?_⟩
        rw [h4, hstep]
        simp [queueAt, sentTo, hk, send_datagram_other_queue cdc s d k n hne]
    | recv f =>
      have hstep : step cdc s (Op.recv f) = (recv_frame cdc s f).2 := rfl
      have hnf : arpSender cdc s.ethernet_address_ f ≠ some n := by
        rw [hme]
        exact hop
      obtain ⟨r1, r2, r3, _⟩ := recv_frame_not_from cdc s f n hnf
      obtain ⟨h0, h1, h2, h4⟩ := ih (step cdc s (Op.recv f)) hme1
        (by rw [hstep, r1]; exact hc) (by rw [hstep, r2]; exact hm) hrest hlt
      refine ⟨h0, h1, h2, ?_⟩
      rw [h4, hstep]
      simp [queueAt, sentTo, r3]
    | tick ms =>
      have hstep : step cdc s (Op.tick ms) = tick s ms := rfl
      have hnow : s.curr_time + ms < T + 5000 := by
        have : (step cdc s (Op.tick ms)).curr_time = s.curr_time + ms := rfl
        omega
      have hkeep : (tick s ms).last_ARP_time n = some T := by
        simp only [tick, eraseIf, hm]
        rw [if_neg]
        simp only [decide_eq_true_eq, not_le]
        omega
      obtain ⟨h0, h1, h2, h4⟩ := ih (step cdc s (Op.tick ms)) hme1
        (by rw [hstep]; exact tick_ARP_table_none s ms n hc) (by rw [hstep]; exact hkeep) hrest hlt
      refine ⟨h0, h1, h2, ?_⟩
      rw [h4, hstep]
      simp [sentTo, tick]
    | drain =>
      have hstep : step cdc s Op.drain = (maybe_send s).2 := rfl
      obtain ⟨r1, r2, r3, _⟩ := maybe_send_members s
      obtain ⟨h0, h1, h2, h4⟩ := ih (step cdc s Op.drain) hme1
        (by rw [hstep, r1]; exact hc) (by rw [hstep, r2]; exact hm) hrest hlt
      refine ⟨h0, h1, h2, ?_⟩
      rw [h4, hstep, r3]
      simp [sentTo]

/-- Without a resolution message from `n` and without a send to `n`, an address that is
neither cached nor marked stays so, and its pending queue is not touched. -/
theorem quiet_run (cdc : Codec) (me : EthernetAddress) (n : Nat) :
    ∀ (ops : List Op) (s : NetworkInterface),
      s.ethernet_address_ = me →
      s.ARP_table n = none →
      s.last_ARP_time n = none →
      (∀ op ∈ ops, Op.notFrom cdc me n op ∧ Op.notSendTo n op) →
      (run cdc s ops).ARP_table n = none ∧
      (run cdc s ops).last_ARP_time n = none ∧
      (run cdc s ops).wait_mac_queue n = s.wait_mac_queue n := by
  intro ops
  induction ops with
  | nil =>
    intro s _ hc hm _
    exact ⟨hc, hm, rfl⟩
  | cons op ops ih =>
    intro s hme hc hm hops
    obtain ⟨hop1, hop2⟩ := hops op (List.mem_cons_self _ _)
    have hrest : ∀ o ∈ ops, Op.notFrom cdc me n o ∧ Op.notSendTo n o :=
      fun o ho => hops o (List.mem_cons_of_mem _ ho)
    rw [run_cons]
    have hme1 : (step cdc s op).ethernet_address_ = me := by
      rw [step_ethernet_address, hme]
    cases op with
    | send d k =>
      have hstep : step cdc s (Op.send d k) = send_datagram cdc s d k := rfl
      have hne : n ≠ k := fun e => hop2 e.symm
      obtain ⟨h1, h2, h3⟩ := ih (step cdc s (Op.send d k)) hme1
        (by rw [hstep, send_datagram_ARP_table]; exact hc)
        (by rw [hstep, send_datagram_other_marker cdc s d k n hne]; exact hm) hrest
      exact ⟨h1, h2, by rw [h3, hstep, send_datagram_other_queue cdc s d k n hne]⟩
    | recv f =>
      have hstep : step cdc s (Op.recv f) = (recv_frame cdc s f).2 := rfl
      have hnf : arpSender cdc s.ethernet_address_ f ≠ some n := by
        rw [hme]
        exact hop1
      obtain ⟨r1, r2, r3, _⟩ := recv_frame_not_from cdc s f n hnf
      obtain ⟨h1, h2, h3⟩ := ih (step cdc s (Op.recv f)) hme1
        (by rw [hstep, r1]; exact hc) (by rw [hstep, r2]; exact hm) hrest
      exact ⟨h1, h2, by rw [h3, hstep, r3]⟩
    | tick ms =>
      have hstep : step cdc s (Op.tick ms) = tick s ms := rfl
      obtain ⟨h1, h2, h3⟩ := ih (step cdc s (Op.tick ms)) hme1
        (by rw [hstep]; exact tick_ARP_table_none s ms n hc)
        (by rw [hstep]; exact tick_last_ARP_time_none s ms n hm) hrest
      exact ⟨h1, h2, by rw [h3, hstep]; rfl⟩
    | drain =>
      have hstep : step cdc s Op.drain = (maybe_send s).2 := rfl
      obtain ⟨r1, r2, r3, _⟩ := maybe_send_members s
      obtain ⟨h1, h2, h3⟩ := ih (step cdc s Op.drain) hme1
        (by rw [hstep, r1]; exact hc) (by rw [hstep, r2]; exact hm) hrest
      exact ⟨h1, h2, by rw [h3, hstep, r3]⟩

/-- C8. Retry window reopening: let `send_datagram(d0, n)` record a marker for `n` at clock
`T` (`n` being neither cached nor marked before). Let any calls follow in which no
resolution message from `n` is processed, up to and including the tick that first brings
the clock to `T + 5,000` or more. Then the marker of `n` is absent; it stays absent over
any further calls that neither send to `n` nor process a message from `n`; the datagrams
sent to `n` so far are all still queued in call order; and the next `send_datagram(d, n)`
appends a new broadcast ARP request for `n`, records a marker at the current clock and
appends `d` behind the waiting datagrams. -/
theorem retry_window_reopens (cdc : Codec) (s : NetworkInterface) (n : Nat)
    (d0 d : InternetDatagram) (ops1 : List Op) (ms : Nat) (ops2 : List Op)
    (hc : s.ARP_table n = none) (hm : s.last_ARP_time n = none)
    (h1 : ∀ op ∈ ops1, Op.notFrom cdc s.ethernet_address_ n op)
    (hbefore : (run cdc (send_datagram cdc s d0 n) ops1).curr_time < s.curr_time + 5000)
    (hcross : s.curr_time + 5000 ≤ (run cdc (send_datagram cdc s d0 n) ops1).curr_time + ms)
    (h2 : ∀ op ∈ ops2, Op.notFrom cdc s.ethernet_address_ n op ∧ Op.notSendTo n op) :
    (send_datagram cdc s d0 n).last_ARP_time n = some s.curr_time ∧
    (run cdc (send_datagram cdc s d0 n) ops1).last_ARP_time n = some s.curr_time ∧
    (tick (run cdc (send_datagram cdc s d0 n) ops1) ms).last_ARP_time n = none ∧
    (run cdc (tick (run cdc (send_datagram cdc s d0 n) ops1) ms) ops2).last_ARP_time n = none ∧
    queueAt (run cdc (tick (run cdc (send_datagram cdc s d0 n) ops1) ms) ops2).wait_mac_queue n =
      queueAt s.wait_mac_queue n ++ d0 :: sentTo n ops1 ∧
    (send_datagram cdc (run cdc (tick (run cdc (send_datagram cdc s d0 n) ops1) ms) ops2) d n).ready_queue =
      (run cdc (tick (run cdc (send_datagram cdc s d0 n) ops1) ms) ops2).ready_queue ++
        [arpRequestFrame cdc (run cdc (tick (run cdc (send_datagram cdc s d0 n) ops1) ms) ops2) n] ∧
    (send_datagram cdc (run cdc (tick (run cdc (send_datagram cdc s d0 n) ops1) ms) ops2) d n).last_ARP_time n =
      some (run cdc (tick (run cdc (send_datagram cdc s d0 n) ops1) ms) ops2).curr_time ∧
    (send_datagram cdc (run cdc (tick (run cdc (send_datagram cdc s d0 n) ops1) ms) ops2) d n).wait_mac_queue n =
      some (queueAt s.wait_mac_queue n ++ d0 :: sentTo n ops1 ++ [d]) := by
  have hcold := send_datagram_cold cdc s d0 n hc hm
  have e1 : (send_datagram cdc s d0 n).ethernet_address_ = s.ethernet_address_ := by rw [hcold]
  have c1 : (send_datagram cdc s d0 n).ARP_table n = none := by rw [hcold]; exact hc
  have m1 : (send_datagram cdc s d0 n).last_ARP_time n = some s.curr_time := by
    rw [hcold]; simp
  have q1 : queueAt (send_datagram cdc s d0 n).wait_mac_queue n =
      queueAt s.wait_mac_queue n ++ [d0] := by
    rw [hcold]; simp [queueAt]
  obtain ⟨eA, cA, mA, qA⟩ :=
    pending_run cdc s.ethernet_address_ n s.curr_time ops1 _ e1 c1 m1 h1 hbefore
  have mB : (tick (run cdc (send_datagram cdc s d0 n) ops1) ms).last_ARP_time n = none := by
    simp only [tick, eraseIf, mA]
    rw [if_pos]
    simp only [decide_eq_true_eq, ge_iff_le]
    omega
  have cB := tick_ARP_table_none (run cdc (send_datagram cdc s d0 n) ops1) ms n cA
  have eB : (tick (run cdc (send_datagram cdc s d0 n) ops1) ms).ethernet_address_ =
      s.ethernet_address_ := eA
  obtain ⟨cC, mC, qC⟩ := quiet_run cdc s.ethernet_address_ n ops2 _ eB cB mB h2
  have qC1 : queueAt (run cdc (tick (run cdc (send_datagram cdc s d0 n) ops1) ms) ops2).wait_mac_queue n
      = queueAt s.wait_mac_queue n ++ d0 :: sentTo n ops1 := by
    unfold queueAt at qA q1 ⊢
    rw [qC]
    have : (tick (run cdc (send_datagram cdc s d0 n) ops1) ms).wait_mac_queue =
        (run cdc (send_datagram cdc s d0 n) ops1).wait_mac_queue := rfl
    rw [this, qA, q1]
    simp
  obtain ⟨k1, k6, k7⟩ := send_datagram_cold_members cdc _ d n cC mC
  refine ⟨m1, mA, mB, mC, qC1, k1, k6, ?_⟩
  rw [k7, qC1]

/-- Witness for C8: a marker set at clock 0, still there after 4,999 ms, gone after one
more millisecond; the next send broadcasts again and queues behind the first datagram. -/
theorem retry_window_reopens_witness :
    (run demoCodec (send_datagram demoCodec demoIface (demoDgram 1 (ipv4 10 0 0 7)) (ipv4 10 0 0 7))
        [Op.tick 4999]).last_ARP_time (ipv4 10 0 0 7) = some 0 ∧
    (tick (run demoCodec
        (send_datagram demoCodec demoIface (demoDgram 1 (ipv4 10 0 0 7)) (ipv4 10 0 0 7))
        [Op.tick 4999]) 1).last_ARP_time (ipv4 10 0 0 7) = none ∧
    (send_datagram demoCodec (run demoCodec (tick (run demoCodec
        (send_datagram demoCodec demoIface (demoDgram 1 (ipv4 10 0 0 7)) (ipv4 10 0 0 7))
        [Op.tick 4999]) 1) [Op.drain]) (demoDgram 2 (ipv4 10 0 0 7)) (ipv4 10 0 0 7)).wait_mac_queue
        (ipv4 10 0 0 7) = some [demoDgram 1 (ipv4 10 0 0 7), demoDgram 2 (ipv4 10 0 0 7)] :=
  have h := retry_window_reopens demoCodec demoIface (ipv4 10 0 0 7) (demoDgram 1 (ipv4 10 0 0 7))
    (demoDgram 2 (ipv4 10 0 0 7)) [Op.tick 4999] 1 [Op.drain] rfl rfl
    (by intro op hop; simp only [List.mem_singleton] at hop; subst hop; trivial)
    (by decide) (by decide)
    (by intro op hop; simp only [List.mem_singleton] at hop; subst hop; exact ⟨trivial, trivial⟩)
  ⟨h.2.1, h.2.2.1, h.2.2.2.2.2.2.2⟩

/-! ## Reachable states: a marker implies a pending queue -/

theorem marker_has_queue_step (cdc : Codec) (s : NetworkInterface) (op : Op)
    (h : ∀ k, s.last_ARP_time k ≠ none → s.wait_mac_queue k ≠ none) :
    ∀ k, (step cdc s op).last_ARP_time k ≠ none → (step cdc s op).wait_mac_queue k ≠ none := by
  intro k hk
  cases op with
  | send d n =>
    have hstep : step cdc s (Op.send d n) = send_datagram cdc s d n := rfl
    rw [hstep] at hk ⊢
    cases hc : s.ARP_table n with
    | some e =>
      rw [send_datagram_hit cdc s d n e hc] at hk ⊢
      exact h k hk
    | none =>
      by_cases hkn : k = n
      · subst hkn
        cases hm : s.last_ARP_time k with
        | none => rw [send_datagram_cold cdc s d k hc hm]; simp
        | some t => rw [send_datagram_throttled cdc s d k t hc hm]; simp
      · rw [send_datagram_other_marker cdc s d n k hkn] at hk
        rw [send_datagram_other_queue cdc s d n k hkn]
        exact h k hk
  | recv f =>
    have hstep : step cdc s (Op.recv f) = (recv_frame cdc s f).2 := rfl
    rw [hstep] at hk ⊢
    cases hs : arpSender cdc s.ethernet_address_ f with
    | none =>
      rw [recv_frame_of_sender_none cdc s f hs] at hk ⊢
      exact h k hk
    | some k0 =>
      obtain ⟨m, _, _, _, _, hr⟩ := recv_frame_of_sender_some cdc s f k0 hs
      rw [hr] at hk ⊢
      simp only [] at hk ⊢
      rw [recv_arp_last_ARP_time] at hk
      rw [recv_arp_wait_mac_queue]
      by_cases hkm : k = m.sender_ip_address
      · subst hkm
        by_cases hq : s.wait_mac_queue m.sender_ip_address = none
        · rw [if_neg (by simp [hq])] at hk
          exact absurd hq (h _ hk)
        · rw [if_pos ⟨rfl, hq⟩] at hk
          exact absurd rfl hk
      · rw [if_neg (fun hh => hkm hh.1)] at hk
        rw [if_neg hkm]
        exact h k hk
  | tick ms =>
    have hstep : step cdc s (Op.tick ms) = tick s ms := rfl
    rw [hstep] at hk ⊢
    have hw : (tick s ms).wait_mac_queue = s.wait_mac_queue := rfl
    rw [hw]
    apply h k
    intro hnone
    exact hk (tick_last_ARP_time_none s ms k hnone)
  | drain =>
    have hstep : step cdc s Op.drain = (maybe_send s).2 := rfl
    obtain ⟨_, r2, r3, _⟩ := maybe_send_members s
    rw [hstep, r2] at hk
    rw [hstep, r3]
    exact h k hk

theorem marker_has_queue_run (cdc : Codec) :
    ∀ (ops : List Op) (s : NetworkInterface),
      (∀ k, s.last_ARP_time k ≠ none → s.wait_mac_queue k ≠ none) →
      ∀ k, (run cdc s ops).last_ARP_time k ≠ none → (run cdc s ops).wait_mac_queue k ≠ none := by
  intro ops
  induction ops with
  | nil => intro s h; exact h
  | cons op ops ih =>
    intro s h
    rw [run_cons]
    exact ih _ (marker_has_queue_step cdc s op h)

theorem marker_has_queue (cdc : Codec) (s : NetworkInterface) (hr : Reachable cdc s) :
    ∀ k, s.last_ARP_time k ≠ none → s.wait_mac_queue k ≠ none := by
  obtain ⟨e, i, ops, rfl⟩ := hr
  apply marker_has_queue_run
  intro k hk
  exact absurd rfl hk

/-! ## Cache expiry -/

/-- While an entry stamped `T` is younger than 30,000 ms and no resolution message from
`n` arrives, the entry stays and no marker for `n` appears. -/
theorem cached_run (cdc : Codec) (me : EthernetAddress) (n T : Nat) :
    ∀ (ops : List Op) (s : NetworkInterface) (e : MacAddress),
      s.ethernet_address_ = me →
      s.ARP_table n = some e →
      e.cache_time = T →
      s.last_ARP_time n = none →
      (∀ op ∈ ops, Op.notFrom cdc me n op) →
      (run cdc s ops).curr_time < T + 30000 →
      (run cdc s ops).ethernet_address_ = me ∧
      (run cdc s ops).ARP_table n = some e ∧
      (run cdc s ops).last_ARP_time n = none := by
  intro ops
  induction ops with
  | nil =>
    intro s e hme hc _ hm _ _
    exact ⟨hme, hc, hm⟩
  | cons op ops ih =>
    intro s e hme hc hT hm hops hlt
    have hop := hops op (List.mem_cons_self _ _)
    have hrest : ∀ o ∈ ops, Op.notFrom cdc me n o := fun o ho => hops o (List.mem_cons_of_mem _ ho)
    rw [run_cons] at hlt ⊢
    have hme1 : (step cdc s op).ethernet_address_ = me := by
      rw [step_ethernet_address, hme]
    have hmono := run_curr_time_le cdc ops (step cdc s op)
    cases op with
    | send d k =>
      have hstep : step cdc s (Op.send d k) = send_datagram cdc s d k := rfl
      have hmark : (send_datagram cdc s d k).last_ARP_time n = none := by
        by_cases hk : k = n
        · subst hk
          rw [send_datagram_hit cdc s d k e hc]
          exact hm
        · rw [send_datagram_other_marker cdc s d k n (fun e => hk e.symm)]
          exact hm
      exact ih (step cdc s (Op.send d k)) e hme1
        (by rw [hstep, send_datagram_ARP_table]; exact hc) hT (by rw [hstep]; exact hmark) hrest hlt
    | recv f =>
      have hstep : step cdc s (Op.recv f) = (recv_frame cdc s f).2 := rfl
      have hnf : arpSender cdc s.ethernet_address_ f ≠ some n := by
        rw [hme]
        exact hop
      obtain ⟨r1, r2, _, _⟩ := recv_frame_not_from cdc s f n hnf
      exact ih (step cdc s (Op.recv f)) e hme1 (by rw [hstep, r1]; exact hc) hT
        (by rw [hstep, r2]; exact hm) hrest hlt
    | tick ms =>
      have hstep : step cdc s (Op.tick ms) = tick s ms := rfl
      have hnow : s.curr_time + ms < T + 30000 := by
        have : (step cdc s (Op.tick ms)).curr_time = s.curr_time + ms := rfl
        omega
      have hkeep : (tick s ms).ARP_table n = some e := by
        simp only [tick, eraseIf, hc]
        rw [if_neg]
        simp only [decide_eq_true_eq, not_le]
        omega
      exact ih (step cdc s (Op.tick ms)) e hme1 (by rw [hstep]; exact hkeep) hT
        (by rw [hstep]; exact tick_last_ARP_time_none s ms n hm) hrest hlt
    | drain =>
      have hstep : step cdc s Op.drain = (maybe_send s).2 := rfl
      obtain ⟨r1, r2, _, _⟩ := maybe_send_members s
      exact ih (step cdc s Op.drain) e hme1 (by rw [hstep, r1]; exact hc) hT
        (by rw [hstep, r2]; exact hm) hrest hlt

/-- Without a resolution message from `n`, an entry for `n` that is present is still the
one stamped `T`, and the clock is below `T + 30,000`. -/
theorem stale_run (cdc : Codec) (me : EthernetAddress) (n T : Nat) :
    ∀ (ops : List Op) (s : NetworkInterface),
      s.ethernet_address_ = me →
      (∀ e, s.ARP_table n = some e → e.cache_time = T ∧ s.curr_time < T + 30000) →
      (∀ op ∈ ops, Op.notFrom cdc me n op) →
      ∀ e, (run cdc s ops).ARP_table n = some e →
        e.cache_time = T ∧ (run cdc s ops).curr_time < T + 30000 := by
  intro ops
  induction ops with
  | nil => intro s _ h _; exact h
  | cons op ops ih =>
    intro s hme h hops
    have hop := hops op (List.mem_cons_self _ _)
    have hrest : ∀ o ∈ ops, Op.notFrom cdc me n o := fun o ho => hops o (List.mem_cons_of_mem _ ho)
    rw [run_cons]
    have hme1 : (step cdc s op).ethernet_address_ = me := by
      rw [step_ethernet_address, hme]
    apply ih (step cdc s op) hme1 _ hrest
    intro e he
    cases op with
    | send d k =>
      have hstep : step cdc s (Op.send d k) = send_datagram cdc s d k := rfl
      rw [hstep, send_datagram_ARP_table] at he
      rw [hstep, send_datagram_curr_time]
      exact h e he
    | recv f =>
      have hstep : step cdc s (Op.recv f) = (recv_frame cdc s f).2 := rfl
      have hnf : arpSender cdc s.ethernet_address_ f ≠ some n := by
        rw [hme]
        exact hop
      obtain ⟨r1, _, _, r4⟩ := recv_frame_not_from cdc s f n hnf
      rw [hstep, r1] at he
      rw [hstep, r4]
      exact h e he
    | tick ms =>
      have hstep : step cdc s (Op.tick ms) = tick s ms := rfl
      rw [hstep] at he ⊢
      simp only [tick, eraseIf] at he ⊢
      cases hc : s.ARP_table n with
      | none => rw [hc] at he; cases he
      | some e0 =>
        rw [hc] at he
        simp only [] at he
        split_ifs at he with hold
        cases he
        obtain ⟨hT, _⟩ := h _ hc
        simp only [decide_eq_true_eq, not_le] at hold
        exact ⟨hT, by omega⟩
    | drain =>
      have hstep : step cdc s Op.drain = (maybe_send s).2 := rfl
      obtain ⟨r1, _, _, r4⟩ := maybe_send_members s
      rw [hstep, r1] at he
      rw [hstep, r4]
      exact h e he

/-- C9. Cache expiry: let a reachable interface learn or refresh the mapping of `n` at
clock `T` by processing a resolution message from `n`, and let no resolution message from
`n` be processed afterwards. Then whenever the clock is `T + 30,000` or more the cache has
no entry for `n`. Moreover, after the tick that first brings the clock to `T + 30,000` or
more, and any further calls that do not send to `n`, the first `send_datagram(d, n)` emits
no IPv4 frame: it appends one broadcast ARP request for `n` to the outbound queue, stamps
a marker for `n` and queues `d` for `n`. -/
theorem cache_expiry (cdc : Codec) (s0 : NetworkInterface) (f : EthernetFrame) (n : Nat)
    (hreach : Reachable cdc s0) (hf : arpSender cdc s0.ethernet_address_ f = some n) :
    (∀ ops : List Op, (∀ op ∈ ops, Op.notFrom cdc s0.ethernet_address_ n op) →
      s0.curr_time + 30000 ≤ (run cdc (recv_frame cdc s0 f).2 ops).curr_time →
      (run cdc (recv_frame cdc s0 f).2 ops).ARP_table n = none) ∧
    (∀ (ops1 : List Op) (ms : Nat) (ops2 : List Op) (d : InternetDatagram),
      (∀ op ∈ ops1, Op.notFrom cdc s0.ethernet_address_ n op) →
      (∀ op ∈ ops2, Op.notFrom cdc s0.ethernet_address_ n op ∧ Op.notSendTo n op) →
      (run cdc (recv_frame cdc s0 f).2 ops1).curr_time < s0.curr_time + 30000 →
      s0.curr_time + 30000 ≤ (run cdc (recv_frame cdc s0 f).2 ops1).curr_time + ms →
      (run cdc (recv_frame cdc s0 f).2 ops1).ARP_table n ≠ none ∧
      (tick (run cdc (recv_frame cdc s0 f).2 ops1) ms).ARP_table n = none ∧
      (run cdc (tick (run cdc (recv_frame cdc s0 f).2 ops1) ms) ops2).ARP_table n = none ∧
      (send_datagram cdc (run cdc (tick (run cdc (recv_frame cdc s0 f).2 ops1) ms) ops2) d n).ready_queue =
        (run cdc (tick (run cdc (recv_frame cdc s0 f).2 ops1) ms) ops2).ready_queue ++
          [arpRequestFrame cdc (run cdc (tick (run cdc (recv_frame cdc s0 f).2 ops1) ms) ops2) n] ∧
      (arpRequestFrame cdc (run cdc (tick (run cdc (recv_frame cdc s0 f).2 ops1) ms) ops2) n).header =
        ⟨ETHERNET_BROADCAST, s0.ethernet_address_, TYPE_ARP⟩ ∧
      TYPE_ARP ≠ TYPE_IPv4 ∧
      (send_datagram cdc (run cdc (tick (run cdc (recv_frame cdc s0 f).2 ops1) ms) ops2) d n).last_ARP_time n =
        some (run cdc (tick (run cdc (recv_frame cdc s0 f).2 ops1) ms) ops2).curr_time ∧
      (send_datagram cdc (run cdc (tick (run cdc (recv_frame cdc s0 f).2 ops1) ms) ops2) d n).wait_mac_queue n =
        some (queueAt (run cdc (tick (run cdc (recv_frame cdc s0 f).2 ops1) ms) ops2).wait_mac_queue n
          ++ [d])) := by
  obtain ⟨m, _, hmk, _, _, hr⟩ := recv_frame_of_sender_some cdc s0 f n hf
  have hs1 : (recv_frame cdc s0 f).2 = recv_arp cdc s0 m := by rw [hr]
  have e1 : (recv_frame cdc s0 f).2.ethernet_address_ = s0.ethernet_address_ := by
    rw [hs1, recv_arp_ethernet_address]
  have t1 : (recv_frame cdc s0 f).2.curr_time = s0.curr_time := by
    rw [hs1, recv_arp_curr_time]
  have c1 : (recv_frame cdc s0 f).2.ARP_table n =
      some ⟨m.sender_ethernet_address, s0.curr_time⟩ := by
    rw [hs1, recv_arp_ARP_table, ← hmk, Function.update_same]
  have m1 : (recv_frame cdc s0 f).2.last_ARP_time n = none := by
    rw [hs1, recv_arp_last_ARP_time, hmk]
    by_cases hq : s0.wait_mac_queue n = none
    · rw [if_neg (by simp [hq])]
      by_contra hne
      exact marker_has_queue cdc s0 hreach n hne hq
    · rw [if_pos ⟨rfl, hq⟩]
  constructor
  · intro ops hops hlate
    cases hc : (run cdc (recv_frame cdc s0 f).2 ops).ARP_table n with
    | none => rfl
    | some e =>
      have := stale_run cdc s0.ethernet_address_ n s0.curr_time ops _ e1
        (by
          intro e0 he0
          rw [c1] at he0
          cases he0
          exact ⟨rfl, by rw [t1]; omega⟩) hops e hc
      omega
  · intro ops1 ms ops2 d h1 h2 hbefore hcross
    obtain ⟨eA, cA, mA⟩ := cached_run cdc s0.ethernet_address_ n s0.curr_time ops1 _ _ e1 c1 rfl
      m1 h1 hbefore
    have cB : (tick (run cdc (recv_frame cdc s0 f).2 ops1) ms).ARP_table n = none := by
      simp only [tick, eraseIf, cA]
      rw [if_pos]
      simp only [decide_eq_true_eq, ge_iff_le]
      omega
    have mB := tick_last_ARP_time_none (run cdc (recv_frame cdc s0 f).2 ops1) ms n mA
    have eB : (tick (run cdc (recv_frame cdc s0 f).2 ops1) ms).ethernet_address_ =
        s0.ethernet_address_ := eA
    obtain ⟨cC, mC, _⟩ := quiet_run cdc s0.ethernet_address_ n ops2 _ eB cB mB h2
    have eC : (run cdc (tick (run cdc (recv_frame cdc s0 f).2 ops1) ms) ops2).ethernet_address_ =
        s0.ethernet_address_ := by
      rw [run_ethernet_address, eB]
    obtain ⟨k1, k6, k7⟩ := send_datagram_cold_members cdc _ d n cC mC
    refine ⟨by rw [cA]; simp, cB, cC, k1, ?_, by decide, k6, k7⟩
    rw [arpRequestFrame, eC]

/-- Witness for C9: 10.0.0.7 is learned at clock 0 on a fresh interface; the entry is
there after 29,999 ms and gone one millisecond later, and the next send broadcasts. -/
theorem cache_expiry_witness :
    Reachable demoCodec demoIface ∧
    arpSender demoCodec demoIface.ethernet_address_
        (demoReplyFrame 0x020000000001 0x020000000007 (ipv4 10 0 0 7) (ipv4 10 0 0 1))
      = some (ipv4 10 0 0 7) ∧
    (run demoCodec (recv_frame demoCodec demoIface
        (demoReplyFrame 0x020000000001 0x020000000007 (ipv4 10 0 0 7) (ipv4 10 0 0 1))).2
      [Op.tick 29999]).ARP_table (ipv4 10 0 0 7) ≠ none ∧
    (tick (run demoCodec (recv_frame demoCodec demoIface
        (demoReplyFrame 0x020000000001 0x020000000007 (ipv4 10 0 0 7) (ipv4 10 0 0 1))).2
      [Op.tick 29999]) 1).ARP_table (ipv4 10 0 0 7) = none :=
  have hreach : Reachable demoCodec demoIface := ⟨0x020000000001, ipv4 10 0 0 1, [], rfl⟩
  have hf : arpSender demoCodec demoIface.ethernet_address_
        (demoReplyFrame 0x020000000001 0x020000000007 (ipv4 10 0 0 7) (ipv4 10 0 0 1))
      = some (ipv4 10 0 0 7) := by decide
  have h := (cache_expiry demoCodec demoIface _ (ipv4 10 0 0 7) hreach hf).2
    [Op.tick 29999] 1 [Op.drain] (demoDgram 1 (ipv4 10 0 0 7))
    (by intro op hop; simp only [List.mem_singleton] at hop; subst hop; trivial)
    (by intro op hop; simp only [List.mem_singleton] at hop; subst hop; exact ⟨trivial, trivial⟩)
    (by decide) (by decide)
  ⟨hreach, hf, h.1, h.2.1⟩

/-! ## `recv_frame`, case by case -/

theorem recv_frame_arp (cdc : Codec) (s : NetworkInterface) (f : EthernetFrame) (m : ARPMessage)
    (hdst : f.header.dst = ETHERNET_BROADCAST ∨ f.header.dst = s.ethernet_address_)
    (htype : f.header.type = TYPE_ARP) (hparse : cdc.parse_arp f.payload = some m) :
    recv_frame cdc s f = (none, recv_arp cdc s m) := by
  have h1 : ¬ (f.header.dst ≠ ETHERNET_BROADCAST ∧ f.header.dst ≠ s.ethernet_address_) := by
    rintro ⟨ha, hb⟩
    rcases hdst with h | h
    · exact ha h
    · exact hb h
  have h2 : ¬ f.header.type = TYPE_IPv4 := by
    rw [htype]
    decide
  unfold recv_frame
  rw [if_neg h1, if_neg h2, if_pos htype, hparse]

theorem recv_frame_misaddressed (cdc : Codec) (s : NetworkInterface) (f : EthernetFrame)
    (h : f.header.dst ≠ ETHERNET_BROADCAST ∧ f.header.dst ≠ s.ethernet_address_) :
    recv_frame cdc s f = (none, s) := by
  unfold recv_frame
  rw [if_pos h]

theorem recv_frame_ipv4 (cdc : Codec) (s : NetworkInterface) (f : EthernetFrame)
    (hdst : f.header.dst = ETHERNET_BROADCAST ∨ f.header.dst = s.ethernet_address_)
    (htype : f.header.type = TYPE_IPv4) :
    recv_frame cdc s f = (cdc.parse_dgram f.payload, s) := by
  have h1 : ¬ (f.header.dst ≠ ETHERNET_BROADCAST ∧ f.header.dst ≠ s.ethernet_address_) := by
    rintro ⟨ha, hb⟩
    rcases hdst with h | h
    · exact ha h
    · exact hb h
  unfold recv_frame
  rw [if_neg h1, if_pos htype]
  cases cdc.parse_dgram f.payload <;> rfl

theorem recv_frame_fst_none_of_not_ipv4 (cdc : Codec) (s : NetworkInterface) (f : EthernetFrame)
    (htype : f.header.type ≠ TYPE_IPv4) : (recv_frame cdc s f).1 = none := by
  unfold recv_frame
  split_ifs
  · rfl
  · split <;> rfl
  · rfl

/-- C11. Gratuitous learning: for a frame addressed to this interface, of type ARP, whose
payload decodes to `m` (any opcode, any target), after `recv_frame` the cache maps
`m.sender_ip_address` to `m.sender_ethernet_address` stamped with the current clock,
whatever was cached for that address before, and the cache entry of every other address
is unchanged. The clock itself does not move. -/
theorem gratuitous_learning (cdc : Codec) (s : NetworkInterface) (f : EthernetFrame)
    (m : ARPMessage)
    (hdst : f.header.dst = ETHERNET_BROADCAST ∨ f.header.dst = s.ethernet_address_)
    (htype : f.header.type = TYPE_ARP) (hparse : cdc.parse_arp f.payload = some m) :
    (recv_frame cdc s f).2.ARP_table m.sender_ip_address =
      some ⟨m.sender_ethernet_address, s.curr_time⟩ ∧
    (recv_frame cdc s f).2.curr_time = s.curr_time ∧
    (∀ k, k ≠ m.sender_ip_address →
      (recv_frame cdc s f).2.ARP_table k = s.ARP_table k) := by
  rw [recv_frame_arp cdc s f m hdst htype hparse]
  refine ⟨?_, recv_arp_curr_time cdc s m, ?_⟩
  · simp only []
    rw [recv_arp_ARP_table, Function.update_same]
  · intro k hk
    simp only []
    rw [recv_arp_ARP_table, Function.update_noteq hk]

/-- Witness for C11: 10.0.0.7 was cached at clock 0 with link address 0x02..07; at clock
100 an unsolicited reply from it with link address 0x02..09 overwrites the entry. -/
theorem gratuitous_learning_witness :
    (recv_frame demoCodec
        (run demoCodec demoIface
          [Op.recv (demoReplyFrame 0x020000000001 0x020000000007 (ipv4 10 0 0 7) (ipv4 10 0 0 1)),
           Op.tick 100])
        (demoReplyFrame ETHERNET_BROADCAST 0x020000000009 (ipv4 10 0 0 7) (ipv4 10 0 0 2))).2.ARP_table
      (ipv4 10 0 0 7) = some ⟨0x020000000009, 100⟩ :=
  (gratuitous_learning demoCodec
    (run demoCodec demoIface
      [Op.recv (demoReplyFrame 0x020000000001 0x020000000007 (ipv4 10 0 0 7) (ipv4 10 0 0 1)),
       Op.tick 100])
    (demoReplyFrame ETHERNET_BROADCAST 0x020000000009 (ipv4 10 0 0 7) (ipv4 10 0 0 2))
    ⟨OPCODE_REPLY, 0x020000000009, ipv4 10 0 0 7, ETHERNET_BROADCAST, ipv4 10 0 0 2⟩
    (Or.inl rfl) rfl rfl).1

theorem filter_arp_ipv4Frames (cdc : Codec) (s : NetworkInterface) (dst : EthernetAddress)
    (queue : List InternetDatagram) :
    (queue.map (ipv4Frame cdc s dst)).filter (fun fr => decide (fr.header.type = TYPE_ARP)) = [] := by
  induction queue with
  | nil => rfl
  | cons d queue ih =>
    rw [List.map_cons, List.filter_cons_of_neg, ih]
    simp [ipv4Frame, TYPE_IPv4, TYPE_ARP]

/-- C12. ARP reply generation: for a frame addressed to this interface, of type ARP, whose
payload decodes to `m`, `recv_frame` only appends to the outbound queue, and the ARP
frames among the appended ones are: exactly one reply when `m.opcode` is REQUEST and
`m.target_ip_address` is the own network address, none otherwise. The reply goes from
the own link address to `m.sender_ethernet_address` and carries a message with opcode
REPLY, sender = own addresses, target = the sender's addresses. -/
theorem arp_reply_generation (cdc : Codec) (s : NetworkInterface) (f : EthernetFrame)
    (m : ARPMessage)
    (hdst : f.header.dst = ETHERNET_BROADCAST ∨ f.header.dst = s.ethernet_address_)
    (htype : f.header.type = TYPE_ARP) (hparse : cdc.parse_arp f.payload = some m) :
    (recv_frame cdc s f).2.ready_queue.take s.ready_queue.length = s.ready_queue ∧
    (((recv_frame cdc s f).2.ready_queue.drop s.ready_queue.length).filter
        (fun fr => decide (fr.header.type = TYPE_ARP)) ≠ [] ↔
      m.opcode = OPCODE_REQUEST ∧ m.target_ip_address = s.ip_address_) ∧
    ((recv_frame cdc s f).2.ready_queue.drop s.ready_queue.length).filter
        (fun fr => decide (fr.header.type = TYPE_ARP)) =
      (if m.opcode = OPCODE_REQUEST ∧ m.target_ip_address = s.ip_address_ then
        [⟨⟨m.sender_ethernet_address, s.ethernet_address_, TYPE_ARP⟩,
          cdc.serialize_arp
            ⟨OPCODE_REPLY, s.ethernet_address_, s.ip_address_, m.sender_ethernet_address,
              m.sender_ip_address⟩⟩]
      else []) := by
  rw [recv_frame_arp cdc s f m hdst htype hparse]
  simp only []
  rw [recv_arp_ready_queue, List.append_assoc]
  have hfilter : ((s.ready_queue ++
        ((if m.opcode = OPCODE_REQUEST ∧ m.target_ip_address = s.ip_address_ then
            [arpReplyFrame cdc s m] else []) ++
          (queueAt s.wait_mac_queue m.sender_ip_address).map
            (ipv4Frame cdc s m.sender_ethernet_address))).drop s.ready_queue.length).filter
        (fun fr => decide (fr.header.type = TYPE_ARP)) =
      (if m.opcode = OPCODE_REQUEST ∧ m.target_ip_address = s.ip_address_ then
        [arpReplyFrame cdc s m] else []) := by
    rw [List.drop_left, List.filter_append, filter_arp_ipv4Frames, List.append_nil]
    split_ifs
    · rw [List.filter_cons_of_pos, List.filter_nil]
      simp [arpReplyFrame]
    · rfl
  refine ⟨List.take_left _ _, ?_, ?_⟩
  · rw [hfilter]
    split_ifs with hc
    · simp [hc]
    · simp [hc]
  · rw [hfilter]
    rfl

/-- Witness for C12: a request for the own address 10.0.0.1, broadcast by 10.0.0.7, is
answered by one unicast reply. -/
theorem arp_reply_generation_witness :
    ((recv_frame demoCodec demoIface
        ⟨⟨ETHERNET_BROADCAST, 0x020000000007, TYPE_ARP⟩,
          demoCodec.serialize_arp
            ⟨OPCODE_REQUEST, 0x020000000007, ipv4 10 0 0 7, 0, ipv4 10 0 0 1⟩⟩).2.ready_queue.drop
          demoIface.ready_queue.length).filter (fun fr => decide (fr.header.type = TYPE_ARP)) =
      [⟨⟨0x020000000007, 0x020000000001, TYPE_ARP⟩,
        [OPCODE_REPLY, 0x020000000001, ipv4 10 0 0 1, 0x020000000007, ipv4 10 0 0 7]⟩] :=
  (arp_reply_generation demoCodec demoIface
    ⟨⟨ETHERNET_BROADCAST, 0x020000000007, TYPE_ARP⟩,
      demoCodec.serialize_arp ⟨OPCODE_REQUEST, 0x020000000007, ipv4 10 0 0 7, 0, ipv4 10 0 0 1⟩⟩
    ⟨OPCODE_REQUEST, 0x020000000007, ipv4 10 0 0 7, 0, ipv4 10 0 0 1⟩
    (Or.inl rfl) rfl rfl).2.2

/-- C13. Result of receive: `recv_frame(f)` returns the datagram `d` exactly when `f` is
addressed to the broadcast or the own link address, has type IPv4 and its payload
decodes to `d`; it returns nothing in every other case, in particular for every frame of
type ARP; and when it returns a datagram the interface state is unchanged. -/
theorem recv_frame_result (cdc : Codec) (s : NetworkInterface) (f : EthernetFrame) :
    (∀ d, (recv_frame cdc s f).1 = some d ↔
      ((f.header.dst = ETHERNET_BROADCAST ∨ f.header.dst = s.ethernet_address_) ∧
        f.header.type = TYPE_IPv4 ∧ cdc.parse_dgram f.payload = some d)) ∧
    (¬ ((f.header.dst = ETHERNET_BROADCAST ∨ f.header.dst = s.ethernet_address_) ∧
        f.header.type = TYPE_IPv4 ∧ ∃ d, cdc.parse_dgram f.payload = some d) →
      (recv_frame cdc s f).1 = none) ∧
    (f.header.type = TYPE_ARP → (recv_frame cdc s f).1 = none) ∧
    (∀ d, (recv_frame cdc s f).1 = some d → (recv_frame cdc s f).2 = s) := by
  have hiff : ∀ d, (recv_frame cdc s f).1 = some d ↔
      ((f.header.dst = ETHERNET_BROADCAST ∨ f.header.dst = s.ethernet_address_) ∧
        f.header.type = TYPE_IPv4 ∧ cdc.parse_dgram f.payload = some d) := by
    intro d
    by_cases hdst : f.header.dst = ETHERNET_BROADCAST ∨ f.header.dst = s.ethernet_address_
    · by_cases htype : f.header.type = TYPE_IPv4
      · rw [recv_frame_ipv4 cdc s f hdst htype]
        simp [hdst, htype]
      · rw [recv_frame_fst_none_of_not_ipv4 cdc s f htype]
        simp [htype]
    · have hmis : f.header.dst ≠ ETHERNET_BROADCAST ∧ f.header.dst ≠ s.ethernet_address_ :=
        ⟨fun e => hdst (Or.inl e), fun e => hdst (Or.inr e)⟩
      rw [recv_frame_misaddressed cdc s f hmis]
      simp [hdst]
  refine ⟨hiff, ?_, ?_, ?_⟩
  · intro hnot
    cases hr : (recv_frame cdc s f).1 with
    | none => rfl
    | some d =>
      obtain ⟨h1, h2, h3⟩ := (hiff d).mp hr
      exact absurd ⟨h1, h2, d, h3⟩ hnot
  · intro htype
    apply recv_frame_fst_none_of_not_ipv4
    rw [htype]
    decide
  · intro d hr
    obtain ⟨h1, h2, _⟩ := (hiff d).mp hr
    rw [recv_frame_ipv4 cdc s f h1 h2]

/-- Witness for C13: an IPv4 frame addressed to the interface yields its datagram and
leaves the state alone; the same frame addressed elsewhere yields nothing. -/
theorem recv_frame_result_witness :
    (recv_frame demoCodec demoIface
        (demoDgramFrame 0x020000000001 0x020000000007 (demoDgram 64 (ipv4 10 0 0 1)))).1
      = some ⟨⟨64, ipv4 10 0 0 1, 0, []⟩, [1, 2, 3]⟩ ∧
    (recv_frame demoCodec demoIface
        (demoDgramFrame 0x020000000001 0x020000000007 (demoDgram 64 (ipv4 10 0 0 1)))).2
      = demoIface ∧
    (recv_frame demoCodec demoIface
        (demoDgramFrame 0x020000000002 0x020000000007 (demoDgram 64 (ipv4 10 0 0 1)))).1 = none :=
  have h1 : (recv_frame demoCodec demoIface
        (demoDgramFrame 0x020000000001 0x020000000007 (demoDgram 64 (ipv4 10 0 0 1)))).1
      = some ⟨⟨64, ipv4 10 0 0 1, 0, []⟩, [1, 2, 3]⟩ :=
    ((recv_frame_result demoCodec demoIface
        (demoDgramFrame 0x020000000001 0x020000000007 (demoDgram 64 (ipv4 10 0 0 1)))).1 _).mpr
      ⟨Or.inr rfl, rfl, rfl⟩
  ⟨h1,
    (recv_frame_result demoCodec demoIface
      (demoDgramFrame 0x020000000001 0x020000000007 (demoDgram 64 (ipv4 10 0 0 1)))).2.2.2 _ h1,
    (recv_frame_result demoCodec demoIface
      (demoDgramFrame 0x020000000002 0x020000000007 (demoDgram 64 (ipv4 10 0 0 1)))).2.1
      (fun h => h.1.elim (fun e => absurd e (by decide)) (fun e => absurd e (by decide)))⟩

/-- C14. Silent drops are atomic: when `f` is addressed neither to the broadcast nor to
the own link address, or has type IPv4 and a payload that does not decode as a datagram,
or has type ARP and a payload that does not decode as a resolution message,
`recv_frame(f)` returns nothing and the interface state afterwards is the state before:
cache, markers, pending queues, outbound queue (and clock and addresses) are as they were. -/
theorem silent_drop (cdc : Codec) (s : NetworkInterface) (f : EthernetFrame)
    (h : (f.header.dst ≠ ETHERNET_BROADCAST ∧ f.header.dst ≠ s.ethernet_address_) ∨
      (f.header.type = TYPE_IPv4 ∧ cdc.parse_dgram f.payload = none) ∨
      (f.header.type = TYPE_ARP ∧ cdc.parse_arp f.payload = none)) :
    recv_frame cdc s f = (none, s) ∧
    (recv_frame cdc s f).2.ARP_table = s.ARP_table ∧
    (recv_frame cdc s f).2.last_ARP_time = s.last_ARP_time ∧
    (recv_frame cdc s f).2.wait_mac_queue = s.wait_mac_queue ∧
    (recv_frame cdc s f).2.ready_queue = s.ready_queue := by
  have hr : recv_frame cdc s f = (none, s) := by
    by_cases hdst : f.header.dst ≠ ETHERNET_BROADCAST ∧ f.header.dst ≠ s.ethernet_address_
    · exact recv_frame_misaddressed cdc s f hdst
    · rcases h with h | ⟨htype, hp⟩ | ⟨htype, hp⟩
      · exact absurd h hdst
      · unfold recv_frame
        rw [if_neg hdst, if_pos htype, hp]
      · have h2 : ¬ f.header.type = TYPE_IPv4 := by
          rw [htype]
          decide
        unfold recv_frame
        rw [if_neg hdst, if_neg h2, if_pos htype, hp]
  rw [hr]
  exact ⟨rfl, rfl, rfl, rfl, rfl⟩

/-- Witness for C14: an ARP frame with a truncated payload, addressed to the interface. -/
theorem silent_drop_witness :
    recv_frame demoCodec demoIface ⟨⟨0x020000000001, 0x020000000007, TYPE_ARP⟩, [1, 2, 3]⟩
      = (none, demoIface) :=
  (silent_drop demoCodec demoIface ⟨⟨0x020000000001, 0x020000000007, TYPE_ARP⟩, [1, 2, 3]⟩
    (Or.inr (Or.inr ⟨rfl, rfl⟩))).1

/-! ## `tick` and `maybe_send` -/

theorem eraseIf_eq_some {V : Type} (old : V → Bool) (m : Nat → Option V) (k : Nat) (v : V) :
    eraseIf old m k = some v ↔ m k = some v ∧ old v = false := by
  unfold eraseIf
  cases hm : m k with
  | none => simp
  | some w =>
    simp only []
    by_cases hw : old w = true
    · rw [if_pos hw]
      constructor
      · intro h; cases h
      · rintro ⟨h1, h2⟩
        cases h1
        rw [hw] at h2
        cases h2
    · rw [if_neg hw]
      constructor
      · intro h
        cases h
        exact ⟨rfl, by simpa using hw⟩
      · rintro ⟨h1, _⟩
        exact h1

/-- C15. Effect of `tick(elapsed)`: the clock becomes the old clock plus `elapsed`; the
cache afterwards holds exactly the old entries whose age, new clock minus timestamp, is
below 30,000, each with its link address and timestamp unchanged; the markers afterwards
are exactly the old markers whose age is below 5,000, with unchanged timestamps; the
outbound queue, the pending queues and the addresses are unchanged; an entry or marker
whose age is exactly at its threshold is removed. -/
theorem tick_effect (s : NetworkInterface) (elapsed : Nat) :
    (tick s elapsed).curr_time = s.curr_time + elapsed ∧
    (∀ k e, (tick s elapsed).ARP_table k = some e ↔
      s.ARP_table k = some e ∧ s.curr_time + elapsed - e.cache_time < 30000) ∧
    (∀ k t, (tick s elapsed).last_ARP_time k = some t ↔
      s.last_ARP_time k = some t ∧ s.curr_time + elapsed - t < 5000) ∧
    (tick s elapsed).ready_queue = s.ready_queue ∧
    (tick s elapsed).wait_mac_queue = s.wait_mac_queue ∧
    (tick s elapsed).ethernet_address_ = s.ethernet_address_ ∧
    (tick s elapsed).ip_address_ = s.ip_address_ ∧
    (∀ k e, s.ARP_table k = some e → s.curr_time + elapsed - e.cache_time = 30000 →
      (tick s elapsed).ARP_table k = none) ∧
    (∀ k t, s.last_ARP_time k = some t → s.curr_time + elapsed - t = 5000 →
      (tick s elapsed).last_ARP_time k = none) := by
  have hc : ∀ k e, (tick s elapsed).ARP_table k = some e ↔
      s.ARP_table k = some e ∧ s.curr_time + elapsed - e.cache_time < 30000 := by
    intro k e
    simp only [tick]
    rw [eraseIf_eq_some]
    simp only [decide_eq_false_iff_not, ge_iff_le, not_le]
  have hm : ∀ k t, (tick s elapsed).last_ARP_time k = some t ↔
      s.last_ARP_time k = some t ∧ s.curr_time + elapsed - t < 5000 := by
    intro k t
    simp only [tick]
    rw [eraseIf_eq_some]
    simp only [decide_eq_false_iff_not, ge_iff_le, not_le]
  refine ⟨rfl, hc, hm, rfl, rfl, rfl, rfl, ?_, ?_⟩
  · intro k e he hage
    cases hr : (tick s elapsed).ARP_table k with
    | none => rfl
    | some e1 =>
      obtain ⟨h1, h2⟩ := (hc k e1).mp hr
      rw [he] at h1
      cases h1
      omega
  · intro k t ht hage
    cases hr : (tick s elapsed).last_ARP_time k with
    | none => rfl
    | some t1 =>
      obtain ⟨h1, h2⟩ := (hm k t1).mp hr
      rw [ht] at h1
      cases h1
      omega

/-- Witness for C15: an entry learned at clock 0 is still cached at clock 29,999 and is
removed by the tick that brings the clock to exactly 30,000. -/
theorem tick_effect_witness :
    (tick (recv_frame demoCodec demoIface
        (demoReplyFrame 0x020000000001 0x020000000007 (ipv4 10 0 0 7) (ipv4 10 0 0 1))).2
      29999).ARP_table (ipv4 10 0 0 7) = some ⟨0x020000000007, 0⟩ ∧
    (tick (recv_frame demoCodec demoIface
        (demoReplyFrame 0x020000000001 0x020000000007 (ipv4 10 0 0 7) (ipv4 10 0 0 1))).2
      30000).ARP_table (ipv4 10 0 0 7) = none :=
  ⟨((tick_effect (recv_frame demoCodec demoIface
        (demoReplyFrame 0x020000000001 0x020000000007 (ipv4 10 0 0 7) (ipv4 10 0 0 1))).2
      29999).2.1 (ipv4 10 0 0 7) ⟨0x020000000007, 0⟩).mpr ⟨rfl, by decide⟩,
    (tick_effect (recv_frame demoCodec demoIface
        (demoReplyFrame 0x020000000001 0x020000000007 (ipv4 10 0 0 7) (ipv4 10 0 0 1))).2
      30000).2.2.2.2.2.2.2.1 (ipv4 10 0 0 7) ⟨0x020000000007, 0⟩ rfl (by decide)⟩

theorem maybe_send_nil (s : NetworkInterface) (h : s.ready_queue = []) :
    maybe_send s = (none, s) := by
  unfold maybe_send
  rw [h]

theorem maybe_send_cons (s : NetworkInterface) (fr : EthernetFrame) (rest : List EthernetFrame)
    (h : s.ready_queue = fr :: rest) :
    maybe_send s = (some fr, { s with ready_queue := rest }) := by
  unfold maybe_send
  rw [h]

theorem drainN_empty (j : Nat) :
    ∀ s : NetworkInterface, s.ready_queue = [] → drainN j s = (List.replicate j none, s) := by
  induction j with
  | zero => intro s _; rfl
  | succ j ih =>
    intro s h
    simp only [drainN, maybe_send_nil s h, ih s h, List.replicate_succ]

theorem drainN_queue (j : Nat) :
    ∀ (q : List EthernetFrame) (s : NetworkInterface), s.ready_queue = q →
      drainN (q.length + j) s =
        (q.map some ++ List.replicate j none, { s with ready_queue := [] }) := by
  intro q
  induction q with
  | nil =>
    intro s h
    have hs : ({ s with ready_queue := [] } : NetworkInterface) = s := by
      cases s
      simp only [] at h
      rw [h]
    simp only [List.length_nil, Nat.zero_add, List.map_nil, List.nil_append]
    rw [hs]
    exact drainN_empty j s h
  | cons fr rest ih =>
    intro s h
    have hlen : (fr :: rest).length + j = (rest.length + j) + 1 := by
      simp only [List.length_cons]
      omega
    rw [hlen]
    simp only [drainN, maybe_send_cons s fr rest h]
    rw [ih { s with ready_queue := rest } rfl]
    simp

/-- C16. `maybe_send` is FIFO: on an empty outbound queue it returns nothing and changes
nothing; otherwise it returns the oldest frame and removes exactly that frame, the rest
of the queue keeping its order; cache, markers, pending queues and clock are untouched.
`send_datagram` and `recv_frame` only append at the tail and `tick` leaves the queue
alone, so successive `maybe_send` calls return the queued frames in the order in which
they were appended, whatever their type, and nothing once the queue is exhausted. -/
theorem maybe_send_fifo (cdc : Codec) (s : NetworkInterface) :
    (s.ready_queue = [] → maybe_send s = (none, s)) ∧
    (∀ fr rest, s.ready_queue = fr :: rest →
      maybe_send s = (some fr, { s with ready_queue := rest })) ∧
    ((maybe_send s).2.ARP_table = s.ARP_table ∧
      (maybe_send s).2.last_ARP_time = s.last_ARP_time ∧
      (maybe_send s).2.wait_mac_queue = s.wait_mac_queue ∧
      (maybe_send s).2.curr_time = s.curr_time) ∧
    (∀ j, drainN (s.ready_queue.length + j) s =
      (s.ready_queue.map some ++ List.replicate j none, { s with ready_queue := [] })) ∧
    (∀ d n, ∃ appended, (send_datagram cdc s d n).ready_queue = s.ready_queue ++ appended) ∧
    (∀ f, ∃ appended, (recv_frame cdc s f).2.ready_queue = s.ready_queue ++ appended) ∧
    (∀ ms, (tick s ms).ready_queue = s.ready_queue) := by
  refine ⟨maybe_send_nil s, maybe_send_cons s, maybe_send_members s,
    fun j => drainN_queue j s.ready_queue s rfl, ?_, ?_, fun _ => rfl⟩
  · intro d n
    unfold send_datagram
    split
    · exact ⟨_, rfl⟩
    · split
      · exact ⟨_, rfl⟩
      · exact ⟨[], by simp⟩
  · intro f
    cases hs : arpSender cdc s.ethernet_address_ f with
    | none =>
      rw [recv_frame_of_sender_none cdc s f hs]
      exact ⟨[], by simp⟩
    | some k =>
      obtain ⟨m, _, _, _, _, hr⟩ := recv_frame_of_sender_some cdc s f k hs
      rw [hr]
      simp only []
      rw [recv_arp_ready_queue, List.append_assoc]
      exact ⟨_, rfl⟩

/-- Witness for C16: a cold send (ARP request), a learned address, then a warm send (IPv4
frame): three `maybe_send` calls return the request, the IPv4 frame, and nothing. -/
theorem maybe_send_fifo_witness :
    (drainN 3 (run demoCodec demoIface
        [Op.send (demoDgram 1 (ipv4 10 0 0 7)) (ipv4 10 0 0 7),
         Op.recv (demoReplyFrame 0x020000000001 0x020000000008 (ipv4 10 0 0 8) (ipv4 10 0 0 1)),
         Op.send (demoDgram 2 (ipv4 10 0 0 8)) (ipv4 10 0 0 8)])).1 =
      [some (arpRequestFrame demoCodec demoIface (ipv4 10 0 0 7)),
       some ⟨⟨0x020000000008, 0x020000000001, TYPE_IPv4⟩,
         demoCodec.serialize_dgram (demoDgram 2 (ipv4 10 0 0 8))⟩,
       none] :=
  congrArg Prod.fst
    ((maybe_send_fifo demoCodec (run demoCodec demoIface
        [Op.send (demoDgram 1 (ipv4 10 0 0 7)) (ipv4 10 0 0 7),
         Op.recv (demoReplyFrame 0x020000000001 0x020000000008 (ipv4 10 0 0 8) (ipv4 10 0 0 1)),
         Op.send (demoDgram 2 (ipv4 10 0 0 8)) (ipv4 10 0 0 8)])).2.2.2.1 1)

/-! ## End-to-end resolution -/

theorem fresh_send_drained (cdc : Codec) (E1 I1 N : Nat) (D : InternetDatagram) :
    run cdc (NetworkInterface.fresh E1 I1) [Op.send D N, Op.drain] =
      { NetworkInterface.fresh E1 I1 with
        last_ARP_time := Function.update (fun _ => none) N (some 0)
        wait_mac_queue := Function.update (fun _ => none) N (some [D]) } := by
  simp [run, step, send_datagram, NetworkInterface.fresh, maybe_send, queueAt]

theorem fresh_send_drained_twice (cdc : Codec) (E1 I1 N : Nat) (D : InternetDatagram) :
    run cdc (NetworkInterface.fresh E1 I1) [Op.send D N, Op.drain, Op.drain] =
      { NetworkInterface.fresh E1 I1 with
        last_ARP_time := Function.update (fun _ => none) N (some 0)
        wait_mac_queue := Function.update (fun _ => none) N (some [D]) } := by
  simp [run, step, send_datagram, NetworkInterface.fresh, maybe_send, queueAt]

/-- C17. End-to-end resolution: on a fresh interface with link address `E1` and network
address `I1`, after `send_datagram(D, N)` the first `maybe_send` returns the broadcast ARP
request (opcode REQUEST, sender `I1`/`E1`, target `N`) and the second returns nothing;
`recv_frame` of a frame addressed to `E1`, of type ARP, decoding to a reply with sender
`N` and link address `E2`, returns nothing and leaves `N` cached as `E2` stamped with the
current clock; the next `maybe_send` returns the IPv4 frame from `E1` to `E2` carrying
`serialize(D)`, the outbound queue is then empty and a further `maybe_send` returns
nothing. -/
theorem end_to_end_resolution (cdc : Codec) (E1 I1 N E2 : Nat) (D : InternetDatagram)
    (f : EthernetFrame) (m : ARPMessage)
    (hdst : f.header.dst = E1) (htype : f.header.type = TYPE_ARP)
    (hparse : cdc.parse_arp f.payload = some m) (hop : m.opcode = OPCODE_REPLY)
    (hN : m.sender_ip_address = N) (hE : m.sender_ethernet_address = E2) :
    (maybe_send (run cdc (NetworkInterface.fresh E1 I1) [Op.send D N])).1 =
      some ⟨⟨ETHERNET_BROADCAST, E1, TYPE_ARP⟩,
        cdc.serialize_arp ⟨OPCODE_REQUEST, E1, I1, 0, N⟩⟩ ∧
    (run cdc (NetworkInterface.fresh E1 I1) [Op.send D N]).wait_mac_queue N = some [D] ∧
    (maybe_send (run cdc (NetworkInterface.fresh E1 I1) [Op.send D N, Op.drain])).1 = none ∧
    (recv_frame cdc (run cdc (NetworkInterface.fresh E1 I1) [Op.send D N, Op.drain, Op.drain]) f).1
      = none ∧
    (run cdc (NetworkInterface.fresh E1 I1)
        [Op.send D N, Op.drain, Op.drain, Op.recv f]).ARP_table N =
      some ⟨E2, (run cdc (NetworkInterface.fresh E1 I1)
        [Op.send D N, Op.drain, Op.drain]).curr_time⟩ ∧
    (maybe_send (run cdc (NetworkInterface.fresh E1 I1)
        [Op.send D N, Op.drain, Op.drain, Op.recv f])).1 =
      some ⟨⟨E2, E1, TYPE_IPv4⟩, cdc.serialize_dgram D⟩ ∧
    (run cdc (NetworkInterface.fresh E1 I1)
        [Op.send D N, Op.drain, Op.drain, Op.recv f, Op.drain]).ready_queue = [] ∧
    (maybe_send (run cdc (NetworkInterface.fresh E1 I1)
        [Op.send D N, Op.drain, Op.drain, Op.recv f, Op.drain])).1 = none := by
  subst hN hE
  have h2 := fresh_send_drained_twice cdc E1 I1 m.sender_ip_address D
  have hsplit4 : run cdc (NetworkInterface.fresh E1 I1)
      [Op.send D m.sender_ip_address, Op.drain, Op.drain, Op.recv f] =
      (recv_frame cdc (run cdc (NetworkInterface.fresh E1 I1)
        [Op.send D m.sender_ip_address, Op.drain, Op.drain]) f).2 :=
    run_append cdc _ [Op.send D m.sender_ip_address, Op.drain, Op.drain] [Op.recv f]
  have hrecv : recv_frame cdc (run cdc (NetworkInterface.fresh E1 I1)
      [Op.send D m.sender_ip_address, Op.drain, Op.drain]) f =
      (none, recv_arp cdc (run cdc (NetworkInterface.fresh E1 I1)
        [Op.send D m.sender_ip_address, Op.drain, Op.drain]) m) := by
    apply recv_frame_arp _ _ _ _ _ htype hparse
    right
    rw [run_ethernet_address, hdst]
    rfl
  have hnoreq : ¬ (m.opcode = OPCODE_REQUEST ∧ m.target_ip_address =
      (run cdc (NetworkInterface.fresh E1 I1)
        [Op.send D m.sender_ip_address, Op.drain, Op.drain]).ip_address_) := by
    rintro ⟨h, _⟩
    rw [hop] at h
    exact absurd h (by decide)
  have hready : (run cdc (NetworkInterface.fresh E1 I1)
      [Op.send D m.sender_ip_address, Op.drain, Op.drain, Op.recv f]).ready_queue =
      [⟨⟨m.sender_ethernet_address, E1, TYPE_IPv4⟩, cdc.serialize_dgram D⟩] := by
    rw [hsplit4, hrecv]
    simp only []
    rw [recv_arp_ready_queue, if_neg hnoreq, h2]
    simp [queueAt, ipv4Frame, NetworkInterface.fresh]
  have hsplit5 : run cdc (NetworkInterface.fresh E1 I1)
      [Op.send D m.sender_ip_address, Op.drain, Op.drain, Op.recv f, Op.drain] =
      (maybe_send (run cdc (NetworkInterface.fresh E1 I1)
        [Op.send D m.sender_ip_address, Op.drain, Op.drain, Op.recv f])).2 :=
    run_append cdc _ [Op.send D m.sender_ip_address, Op.drain, Op.drain, Op.recv f] [Op.drain]
  have hempty : (run cdc (NetworkInterface.fresh E1 I1)
      [Op.send D m.sender_ip_address, Op.drain, Op.drain, Op.recv f, Op.drain]).ready_queue = [] := by
    rw [hsplit5, maybe_send_cons _ _ _ hready]
  refine ⟨?_, ?_, ?_, ?_, ?_, ?_, hempty, ?_⟩
  · simp [run, step, send_datagram, NetworkInterface.fresh, maybe_send, queueAt,
      arpRequestFrame, arpRequest]
  · simp [run, step, send_datagram, NetworkInterface.fresh, queueAt]
  · rw [fresh_send_drained]
    rfl
  · rw [hrecv]
  · rw [hsplit4, hrecv]
    simp only []
    rw [recv_arp_ARP_table, Function.update_same]
  · rw [maybe_send_cons _ _ _ hready]
  · rw [maybe_send_nil _ hempty]

/-- Witness for C17: the scenario on the interface 10.0.0.1 / 0x02..01 resolving 10.0.0.7. -/
theorem end_to_end_resolution_witness :
    (maybe_send (run demoCodec (NetworkInterface.fresh 0x020000000001 (ipv4 10 0 0 1))
        [Op.send (demoDgram 64 (ipv4 10 0 0 7)) (ipv4 10 0 0 7), Op.drain, Op.drain,
         Op.recv (demoReplyFrame 0x020000000001 0x020000000007 (ipv4 10 0 0 7)
           (ipv4 10 0 0 1))])).1 =
      some ⟨⟨0x020000000007, 0x020000000001, TYPE_IPv4⟩,
        demoCodec.serialize_dgram (demoDgram 64 (ipv4 10 0 0 7))⟩ :=
  (end_to_end_resolution demoCodec 0x020000000001 (ipv4 10 0 0 1) (ipv4 10 0 0 7) 0x020000000007
    (demoDgram 64 (ipv4 10 0 0 7))
    (demoReplyFrame 0x020000000001 0x020000000007 (ipv4 10 0 0 7) (ipv4 10 0 0 1))
    ⟨OPCODE_REPLY, 0x020000000007, ipv4 10 0 0 7, 0x020000000001, ipv4 10 0 0 1⟩
    rfl rfl rfl rfl rfl rfl).2.2.2.2.2.1

/-! ## The prefix-match test -/

theorem shiftRight_eq_iff_top_bits (p d k : Nat) (hk : k ≤ 32) (hp : p < 2 ^ 32)
    (hd : d < 2 ^ 32) :
    p >>> k = d >>> k ↔ ∀ i, i < 32 - k → p.testBit (31 - i) = d.testBit (31 - i) := by
  constructor
  · intro h i hi
    have h1 : (p >>> k).testBit (31 - i - k) = (d >>> k).testBit (31 - i - k) := by rw [h]
    rw [Nat.testBit_shiftRight, Nat.testBit_shiftRight] at h1
    have h2 : k + (31 - i - k) = 31 - i := by omega
    rw [h2] at h1
    exact h1
  · intro h
    apply Nat.eq_of_testBit_eq
    intro j
    rw [Nat.testBit_shiftRight, Nat.testBit_shiftRight]
    by_cases hj : k + j < 32
    · have h1 := h (31 - (k + j)) (by omega)
      have h2 : 31 - (31 - (k + j)) = k + j := by omega
      rw [h2] at h1
      exact h1
    · have hpow : (2 : Nat) ^ 32 ≤ 2 ^ (k + j) := Nat.pow_le_pow_right (by decide) (by omega)
      rw [Nat.testBit_lt_two_pow (lt_of_lt_of_le hp hpow),
        Nat.testBit_lt_two_pow (lt_of_lt_of_le hd hpow)]

theorem topBitsEqual_iff (L p d : Nat) :
    topBitsEqual L p d = true ↔ ∀ i, i < L → p.testBit (31 - i) = d.testBit (31 - i) := by
  unfold topBitsEqual
  rw [List.all_eq_true]
  constructor
  · intro h i hi
    have := h i (List.mem_range.mpr hi)
    simpa using this
  · intro h i hi
    have := h i (List.mem_range.mp hi)
    simpa using this

theorem matchesRoute_iff_top_bits (p L d : Nat) (nh : Option Nat) (ifc : Nat)
    (hp : p < 2 ^ 32) (hL : L ≤ 32) (hd : d < 2 ^ 32) :
    matchesRoute ⟨p, L, nh, ifc⟩ d = true ↔
      ∀ i, i < L → p.testBit (31 - i) = d.testBit (31 - i) := by
  have hlen : (32 + 256 - L % 256) % 256 = 32 - L := by omega
  unfold matchesRoute
  simp only [hlen, beq_iff_eq]
  rw [shiftRight_eq_iff_top_bits p d (32 - L) (by omega) hp hd]
  have h32 : 32 - (32 - L) = L := by omega
  rw [h32]

/-- C18. Prefix-match predicate: for a 32-bit route prefix `p`, a prefix length `L` in
0..32 and a 32-bit destination `d`, the test of `Router::route` is true exactly when `p`
and `d` agree on their `L` most significant bits (bits 31 down to `32 - L`), which is the
rule in the spec's words (`topBitsEqual`); with `L = 0` every destination matches; with
`L = 32` exactly `d = p` matches; and two route prefixes that agree on their top `L` bits
give the same result. -/
theorem prefix_match_predicate (p L d : Nat) (nh : Option Nat) (ifc : Nat)
    (hp : p < 2 ^ 32) (hL : L ≤ 32) (hd : d < 2 ^ 32) :
    (matchesRoute ⟨p, L, nh, ifc⟩ d = true ↔
      ∀ i, i < L → p.testBit (31 - i) = d.testBit (31 - i)) ∧
    matchesRoute ⟨p, L, nh, ifc⟩ d = topBitsEqual L p d ∧
    (L = 0 → matchesRoute ⟨p, L, nh, ifc⟩ d = true) ∧
    (L = 32 → (matchesRoute ⟨p, L, nh, ifc⟩ d = true ↔ d = p)) ∧
    (∀ q, q < 2 ^ 32 → (∀ i, i < L → q.testBit (31 - i) = p.testBit (31 - i)) →
      matchesRoute ⟨q, L, nh, ifc⟩ d = matchesRoute ⟨p, L, nh, ifc⟩ d) := by
  have hiff := matchesRoute_iff_top_bits p L d nh ifc hp hL hd
  refine ⟨hiff, ?_, ?_, ?_, ?_⟩
  · rw [Bool.eq_iff_iff, hiff, topBitsEqual_iff]
  · intro h0
    rw [hiff]
    intro i hi
    omega
  · intro h32
    rw [hiff]
    constructor
    · intro h
      apply Nat.eq_of_testBit_eq
      intro j
      by_cases hj : j < 32
      · have h1 := h (31 - j) (by omega)
        have h2 : 31 - (31 - j) = j := by omega
        rw [h2] at h1
        exact h1.symm
      · have hpow : (2 : Nat) ^ 32 ≤ 2 ^ j := Nat.pow_le_pow_right (by decide) (by omega)
        rw [Nat.testBit_lt_two_pow (lt_of_lt_of_le hp hpow),
          Nat.testBit_lt_two_pow (lt_of_lt_of_le hd hpow)]
    · intro h i _
      rw [h]
  · intro q hq hsame
    rw [Bool.eq_iff_iff, hiff, matchesRoute_iff_top_bits q L d nh ifc hq hL hd]
    constructor
    · intro h i hi
      rw [← hsame i hi]
      exact h i hi
    · intro h i hi
      rw [hsame i hi]
      exact h i hi

/-- Witness for C18: 10.1.0.0/16 matches 10.1.2.3, and so does 10.1.255.255/16, whose low
bits differ; 10.2.0.0/16 does not. -/
theorem prefix_match_predicate_witness :
    ipv4 10 1 0 0 < 2 ^ 32 ∧ 16 ≤ 32 ∧ ipv4 10 1 2 3 < 2 ^ 32 ∧
    matchesRoute ⟨ipv4 10 1 0 0, 16, none, 0⟩ (ipv4 10 1 2 3) = topBitsEqual 16 (ipv4 10 1 0 0) (ipv4 10 1 2 3) ∧
    matchesRoute ⟨ipv4 10 1 0 0, 16, none, 0⟩ (ipv4 10 1 2 3) = true ∧
    matchesRoute ⟨ipv4 10 1 255 255, 16, none, 0⟩ (ipv4 10 1 2 3) = true ∧
    matchesRoute ⟨ipv4 10 2 0 0, 16, none, 0⟩ (ipv4 10 1 2 3) = false :=
  ⟨by decide, by decide, by decide,
    (prefix_match_predicate (ipv4 10 1 0 0) 16 (ipv4 10 1 2 3) none 0
      (by decide) (by decide) (by decide)).2.1,
    by decide, by decide, by decide⟩

/-! ## Reachable states: a cached address has nothing pending -/

theorem resolved_step (cdc : Codec) (s : NetworkInterface) (op : Op)
    (h1 : ∀ k, s.last_ARP_time k ≠ none → s.wait_mac_queue k ≠ none)
    (h2 : ∀ k, s.ARP_table k ≠ none →
      s.last_ARP_time k = none ∧ queueAt s.wait_mac_queue k = []) :
    ∀ k, (step cdc s op).ARP_table k ≠ none →
      (step cdc s op).last_ARP_time k = none ∧ queueAt (step cdc s op).wait_mac_queue k = [] := by
  intro k hk
  cases op with
  | send d n =>
    have hstep : step cdc s (Op.send d n) = send_datagram cdc s d n := rfl
    rw [hstep] at hk ⊢
    rw [send_datagram_ARP_table] at hk
    cases hc : s.ARP_table n with
    | some e =>
      rw [send_datagram_hit cdc s d n e hc]
      exact h2 k hk
    | none =>
      have hkn : k ≠ n := by
        intro e
        rw [e] at hk
        exact hk hc
      rw [send_datagram_other_marker cdc s d n k hkn]
      unfold queueAt
      rw [send_datagram_other_queue cdc s d n k hkn]
      exact h2 k hk
  | recv f =>
    have hstep : step cdc s (Op.recv f) = (recv_frame cdc s f).2 := rfl
    rw [hstep] at hk ⊢
    cases hs : arpSender cdc s.ethernet_address_ f with
    | none =>
      rw [recv_frame_of_sender_none cdc s f hs] at hk ⊢
      exact h2 k hk
    | some k0 =>
      obtain ⟨m, _, _, _, _, hr⟩ := recv_frame_of_sender_some cdc s f k0 hs
      rw [hr] at hk ⊢
      simp only [] at hk ⊢
      rw [recv_arp_ARP_table] at hk
      unfold queueAt
      rw [recv_arp_last_ARP_time, recv_arp_wait_mac_queue]
      by_cases hkm : k = m.sender_ip_address
      · subst hkm
        rw [if_pos rfl]
        constructor
        · by_cases hq : s.wait_mac_queue m.sender_ip_address = none
          · rw [if_neg (by simp [hq])]
            by_contra hne
            exact h1 _ hne hq
          · rw [if_pos ⟨rfl, hq⟩]
        · cases s.wait_mac_queue m.sender_ip_address <;> rfl
      · rw [Function.update_noteq hkm] at hk
        rw [if_neg (fun hh => hkm hh.1), if_neg hkm]
        exact h2 k hk
  | tick ms =>
    have hstep : step cdc s (Op.tick ms) = tick s ms := rfl
    rw [hstep] at hk ⊢
    have hold : s.ARP_table k ≠ none := by
      intro hnone
      exact hk (tick_ARP_table_none s ms k hnone)
    obtain ⟨a1, a2⟩ := h2 k hold
    exact ⟨tick_last_ARP_time_none s ms k a1, a2⟩
  | drain =>
    have hstep : step cdc s Op.drain = (maybe_send s).2 := rfl
    obtain ⟨r1, r2, r3, _⟩ := maybe_send_members s
    rw [hstep, r1] at hk
    rw [hstep, r2, r3]
    exact h2 k hk

theorem resolved_run (cdc : Codec) :
    ∀ (ops : List Op) (s : NetworkInterface),
      (∀ k, s.last_ARP_time k ≠ none → s.wait_mac_queue k ≠ none) →
      (∀ k, s.ARP_table k ≠ none →
        s.last_ARP_time k = none ∧ queueAt s.wait_mac_queue k = []) →
      ∀ k, (run cdc s ops).ARP_table k ≠ none →
        (run cdc s ops).last_ARP_time k = none ∧
          queueAt (run cdc s ops).wait_mac_queue k = [] := by
  intro ops
  induction ops with
  | nil => intro s _ h2; exact h2
  | cons op ops ih =>
    intro s h1 h2
    rw [run_cons]
    exact ih _ (marker_has_queue_step cdc s op h1) (resolved_step cdc s op h1 h2)

/-- C19. Resolved addresses have nothing pending: in every state reachable from a fresh
interface by `send_datagram`, `recv_frame`, `tick` and `maybe_send` calls, an address
with a cache entry has no marker and an empty pending queue; and right after a
resolution message from `S` (any opcode), in a frame addressed to the interface, has been
processed in such a state, `S` is cached and no marker for `S` remains. -/
theorem resolved_nothing_pending (cdc : Codec) (s : NetworkInterface)
    (hreach : Reachable cdc s) :
    (∀ k, s.ARP_table k ≠ none →
      s.last_ARP_time k = none ∧ queueAt s.wait_mac_queue k = []) ∧
    (∀ (f : EthernetFrame) (m : ARPMessage),
      (f.header.dst = ETHERNET_BROADCAST ∨ f.header.dst = s.ethernet_address_) →
      f.header.type = TYPE_ARP → cdc.parse_arp f.payload = some m →
      (recv_frame cdc s f).2.ARP_table m.sender_ip_address ≠ none ∧
      (recv_frame cdc s f).2.last_ARP_time m.sender_ip_address = none ∧
      queueAt (recv_frame cdc s f).2.wait_mac_queue m.sender_ip_address = []) := by
  have hmq := marker_has_queue cdc s hreach
  have hres : ∀ k, s.ARP_table k ≠ none →
      s.last_ARP_time k = none ∧ queueAt s.wait_mac_queue k = [] := by
    obtain ⟨e, i, ops, rfl⟩ := hreach
    apply resolved_run
    · intro k hk
      exact absurd rfl hk
    · intro k hk
      exact absurd rfl hk
  refine ⟨hres, ?_⟩
  intro f m hdst htype hparse
  have hstep : step cdc s (Op.recv f) = (recv_frame cdc s f).2 := rfl
  have hc : (recv_frame cdc s f).2.ARP_table m.sender_ip_address ≠ none := by
    rw [recv_frame_arp cdc s f m hdst htype hparse]
    simp only []
    rw [recv_arp_ARP_table, Function.update_same]
    simp
  have := resolved_step cdc s (Op.recv f) hmq hres m.sender_ip_address (by rw [hstep]; exact hc)
  rw [hstep] at this
  exact ⟨hc, this.1, this.2⟩

/-- Witness for C19: after a cold send to 10.0.0.7 and the reply from it, 10.0.0.7 is
cached, unmarked, and nothing waits for it. -/
theorem resolved_nothing_pending_witness :
    Reachable demoCodec (run demoCodec demoIface
      [Op.send (demoDgram 1 (ipv4 10 0 0 7)) (ipv4 10 0 0 7),
       Op.recv (demoReplyFrame 0x020000000001 0x020000000007 (ipv4 10 0 0 7) (ipv4 10 0 0 1))]) ∧
    (run demoCodec demoIface
      [Op.send (demoDgram 1 (ipv4 10 0 0 7)) (ipv4 10 0 0 7),
       Op.recv (demoReplyFrame 0x020000000001 0x020000000007 (ipv4 10 0 0 7) (ipv4 10 0 0 1))]).ARP_table
        (ipv4 10 0 0 7) ≠ none ∧
    ((run demoCodec demoIface
      [Op.send (demoDgram 1 (ipv4 10 0 0 7)) (ipv4 10 0 0 7),
       Op.recv (demoReplyFrame 0x020000000001 0x020000000007 (ipv4 10 0 0 7) (ipv4 10 0 0 1))]).last_ARP_time
        (ipv4 10 0 0 7) = none ∧
     queueAt (run demoCodec demoIface
      [Op.send (demoDgram 1 (ipv4 10 0 0 7)) (ipv4 10 0 0 7),
       Op.recv (demoReplyFrame 0x020000000001 0x020000000007 (ipv4 10 0 0 7) (ipv4 10 0 0 1))]).wait_mac_queue
        (ipv4 10 0 0 7) = []) :=
  have hreach : Reachable demoCodec (run demoCodec demoIface
      [Op.send (demoDgram 1 (ipv4 10 0 0 7)) (ipv4 10 0 0 7),
       Op.recv (demoReplyFrame 0x020000000001 0x020000000007 (ipv4 10 0 0 7) (ipv4 10 0 0 1))]) :=
    ⟨0x020000000001, ipv4 10 0 0 1, _, rfl⟩
  have hc : (run demoCodec demoIface
      [Op.send (demoDgram 1 (ipv4 10 0 0 7)) (ipv4 10 0 0 7),
       Op.recv (demoReplyFrame 0x020000000001 0x020000000007 (ipv4 10 0 0 7) (ipv4 10 0 0 1))]).ARP_table
        (ipv4 10 0 0 7) ≠ none := by decide
  ⟨hreach, hc, (resolved_nothing_pending demoCodec _ hreach).1 (ipv4 10 0 0 7) hc⟩

/-! ## The routing pass completes -/

theorem routeDecision_ok (cdc : Codec) (tbl : List RouteEntry) (d : InternetDatagram) :
    ∃ r, routeDecision cdc tbl d = .ok r := by
  by_cases h : d.header.ttl = 0 ∨ d.header.ttl = 1
  · exact ⟨none, routeDecision_ttl_le_one cdc tbl d h⟩
  · have httl : 2 ≤ d.header.ttl := by omega
    cases hs : scanTable tbl d.header.dst with
    | none => exact ⟨none, routeDecision_no_match cdc tbl d hs⟩
    | some j =>
      obtain ⟨e, he, _, _⟩ := scanTable_some tbl d.header.dst j hs
      exact ⟨_, routeDecision_forward cdc tbl d j e httl hs he⟩

theorem routeDecision_some_inv (cdc : Codec) (tbl : List RouteEntry) (d : InternetDatagram)
    (c : SendCall) (h : routeDecision cdc tbl d = .ok (some c)) :
    2 ≤ d.header.ttl ∧ ∃ j e, scanTable tbl d.header.dst = some j ∧ tbl[j]? = some e ∧
      c = ⟨e.interface_num, forwarded cdc d, e.next_hop.getD d.header.dst⟩ := by
  by_cases h01 : d.header.ttl = 0 ∨ d.header.ttl = 1
  · rw [routeDecision_ttl_le_one cdc tbl d h01] at h
    cases h
  · have httl : 2 ≤ d.header.ttl := by omega
    cases hs : scanTable tbl d.header.dst with
    | none =>
      rw [routeDecision_no_match cdc tbl d hs] at h
      cases h
    | some j =>
      obtain ⟨e, he, _, _⟩ := scanTable_some tbl d.header.dst j hs
      rw [routeDecision_forward cdc tbl d j e httl hs he] at h
      cases h
      exact ⟨httl, j, e, rfl, he, rfl⟩

theorem set_of_getElem? {α : Type} (l : List α) (i : Nat) (x : α) (h : l[i]? = some x) :
    l.set i x = l := by
  apply List.ext_getElem?
  intro n
  rw [List.getElem?_set]
  by_cases hn : i = n
  · subst hn
    rw [if_pos rfl, h]
    obtain ⟨hlt, _⟩ := List.getElem?_eq_some_iff.mp h
    rw [if_pos hlt]
  · rw [if_neg hn]

theorem inboundQueues_getElem? (ifs : List AsyncNetworkInterface) (i : Nat)
    (q : List InternetDatagram) (h : (inboundQueues ifs)[i]? = some q) :
    ∃ a, ifs[i]? = some a ∧ a.datagrams_in = q := by
  unfold inboundQueues at h
  rw [List.getElem?_map] at h
  exact Option.map_eq_some'.mp h

theorem routeDatagram_ok (cdc : Codec) (tbl : List RouteEntry)
    (ifs : List AsyncNetworkInterface) (d : InternetDatagram)
    (hgood : ∀ c, routeDecision cdc tbl d = .ok (some c) → c.interface_num < ifs.length) :
    ∃ ifs1 calls, routeDatagram cdc tbl ifs d = .ok (ifs1, calls) ∧
      inboundQueues ifs1 = inboundQueues ifs ∧
      ∀ c ∈ calls, routeDecision cdc tbl d = .ok (some c) := by
  obtain ⟨r, hr⟩ := routeDecision_ok cdc tbl d
  cases r with
  | none =>
    exact ⟨ifs, [], routeDatagram_of_drop cdc tbl ifs d hr, rfl, fun c hc => by cases hc⟩
  | some c =>
    have hlt := hgood c hr
    have ha : Router.interface ifs c.interface_num = some ifs[c.interface_num] :=
      List.getElem?_eq_getElem hlt
    refine ⟨_, [c], routeDatagram_of_forward cdc tbl ifs d c _ hr ha, ?_, ?_⟩
    · unfold inboundQueues
      rw [List.map_set]
      apply set_of_getElem?
      rw [List.getElem?_map]
      have : ifs[c.interface_num]? = some ifs[c.interface_num] := List.getElem?_eq_getElem hlt
      rw [this]
      rfl
    · intro c1 hc1
      rw [List.mem_singleton] at hc1
      rw [hc1]
      exact hr

theorem routeLoop_ok (cdc : Codec) (tbl : List RouteEntry) (i N : Nat) :
    ∀ (q : List InternetDatagram) (ifs : List AsyncNetworkInterface),
      ifs.length = N →
      (inboundQueues ifs)[i]? = some q →
      (∀ d ∈ q, ∀ c, routeDecision cdc tbl d = .ok (some c) → c.interface_num < N) →
      ∃ ifs1 calls, routeLoop cdc tbl i (q.length + 1) ifs = .ok (ifs1, calls) ∧
        inboundQueues ifs1 = (inboundQueues ifs).set i [] ∧
        ∀ c ∈ calls, ∃ d ∈ q, routeDecision cdc tbl d = .ok (some c) := by
  intro q
  induction q with
  | nil =>
    intro ifs _ hq _
    obtain ⟨a, ha, haq⟩ := inboundQueues_getElem? ifs i [] hq
    refine ⟨ifs, [], ?_, (set_of_getElem? _ i [] hq).symm, fun c hc => by cases hc⟩
    simp only [List.length_nil, Nat.zero_add, routeLoop, ha,
      AsyncNetworkInterface.maybe_receive, haq]
  | cons d rest ih =>
    intro ifs hlen hq hgood
    obtain ⟨a, ha, haq⟩ := inboundQueues_getElem? ifs i (d :: rest) hq
    have hi : i < ifs.length := (List.getElem?_eq_some_iff.mp ha).1
    have hlen1 : (ifs.set i { a with datagrams_in := rest }).length = N := by
      rw [List.length_set, hlen]
    obtain ⟨ifs2, calls1, hrd, hq2, hc1⟩ :=
      routeDatagram_ok cdc tbl (ifs.set i { a with datagrams_in := rest }) d
        (by
          intro c hc
          rw [hlen1]
          exact hgood d (List.mem_cons_self _ _) c hc)
    have hq1 : inboundQueues (ifs.set i { a with datagrams_in := rest }) =
        (inboundQueues ifs).set i rest := by
      unfold inboundQueues
      rw [List.map_set]
    have hlen2 : ifs2.length = N := by
      have : (inboundQueues ifs2).length = (inboundQueues ifs).length := by
        rw [hq2, hq1, List.length_set]
      unfold inboundQueues at this
      rw [List.length_map, List.length_map] at this
      rw [this, hlen]
    have hqi : (inboundQueues ifs2)[i]? = some rest := by
      rw [hq2, hq1, List.getElem?_set_self]
      unfold inboundQueues
      rw [List.length_map]
      exact hi
    obtain ⟨ifs3, calls2, hloop, hq3, hc2⟩ := ih ifs2 hlen2 hqi
      (fun d1 hd1 => hgood d1 (List.mem_cons_of_mem _ hd1))
    refine ⟨ifs3, calls1 ++ calls2, ?_, ?_, ?_⟩
    · rw [List.length_cons, routeLoop]
      simp only [ha, AsyncNetworkInterface.maybe_receive, haq, hrd, hloop]
    · rw [hq3, hq2, hq1, List.set_set]
    · intro c hc
      rcases List.mem_append.mp hc with h | h
      · exact ⟨d, List.mem_cons_self _ _, hc1 c h⟩
      · obtain ⟨d1, hd1, hdec⟩ := hc2 c h
        exact ⟨d1, List.mem_cons_of_mem _ hd1, hdec⟩

theorem inboundQueues_length (ifs : List AsyncNetworkInterface) :
    (inboundQueues ifs).length = ifs.length := by
  unfold inboundQueues
  rw [List.length_map]

theorem routeFrom_ok (cdc : Codec) (tbl : List RouteEntry) (N : Nat) :
    ∀ (n i : Nat) (ifs : List AsyncNetworkInterface),
      ifs.length = N → i + n = N →
      (∀ q ∈ inboundQueues ifs, ∀ d ∈ q, ∀ c,
        routeDecision cdc tbl d = .ok (some c) → c.interface_num < N) →
      ∃ ifs1 calls, routeFrom cdc tbl n i ifs = .ok (ifs1, calls) ∧
        ifs1.length = N ∧
        (∀ k, (inboundQueues ifs1)[k]? =
          if i ≤ k then ((inboundQueues ifs)[k]?).map (fun _ => []) else (inboundQueues ifs)[k]?) ∧
        ∀ c ∈ calls, ∃ q ∈ inboundQueues ifs, ∃ d ∈ q,
          routeDecision cdc tbl d = .ok (some c) := by
  intro n
  induction n with
  | zero =>
    intro i ifs hlen hin _
    refine ⟨ifs, [], rfl, hlen, ?_, fun c hc => by cases hc⟩
    intro k
    split_ifs with hk
    · have hnone : (inboundQueues ifs)[k]? = none := by
        apply List.getElem?_eq_none
        rw [inboundQueues_length]
        omega
      rw [hnone]
      rfl
    · rfl
  | succ n ih =>
    intro i ifs hlen hin hgood
    have hi : i < ifs.length := by omega
    have ha : ifs[i]? = some ifs[i] := List.getElem?_eq_getElem hi
    have hqi : (inboundQueues ifs)[i]? = some (ifs[i]).datagrams_in := by
      unfold inboundQueues
      rw [List.getElem?_map, ha]
      rfl
    have hqmem : (ifs[i]).datagrams_in ∈ inboundQueues ifs := List.getElem?_mem hqi
    obtain ⟨ifs1, calls1, hloop, hq1, hc1⟩ := routeLoop_ok cdc tbl i N _ ifs hlen hqi
      (fun d hd => hgood _ hqmem d hd)
    have hlen1 : ifs1.length = N := by
      rw [← inboundQueues_length, hq1, List.length_set, inboundQueues_length, hlen]
    have hgood1 : ∀ q ∈ inboundQueues ifs1, ∀ d ∈ q, ∀ c,
        routeDecision cdc tbl d = .ok (some c) → c.interface_num < N := by
      intro q hq d hd
      rw [hq1] at hq
      rcases List.mem_or_eq_of_mem_set hq with h | h
      · exact hgood q h d hd
      · rw [h] at hd
        cases hd
    obtain ⟨ifs2, calls2, hfrom, hlen2, hq2, hc2⟩ := ih (i + 1) ifs1 hlen1 (by omega) hgood1
    refine ⟨ifs2, calls1 ++ calls2, ?_, hlen2, ?_, ?_⟩
    · rw [routeFrom]
      simp only [ha, hloop, hfrom]
    · intro k
      rw [hq2 k, hq1]
      by_cases hk : i + 1 ≤ k
      · rw [if_pos hk, if_pos (by omega), List.getElem?_set_ne (by omega)]
      · rw [if_neg hk]
        by_cases hki : k = i
        · subst hki
          rw [if_pos (le_refl _), List.getElem?_set_self (by rw [inboundQueues_length]; exact hi),
            hqi]
          rfl
        · rw [if_neg (by omega), List.getElem?_set_ne (fun e => hki e.symm)]
    · intro c hc
      rcases List.mem_append.mp hc with h | h
      · obtain ⟨d, hd, hdec⟩ := hc1 c h
        exact ⟨_, hqmem, d, hd, hdec⟩
      · obtain ⟨q, hq, d, hd, hdec⟩ := hc2 c h
        rw [hq1] at hq
        rcases List.mem_or_eq_of_mem_set hq with h1 | h1
        · exact ⟨q, h1, d, hd, hdec⟩
        · rw [h1] at hd
          cases hd

/-- C20 fails as stated: the table holds the default route to interface 5, built by
`add_route`, the router has one interface, and a datagram with TTL 64 waits in its
receive queue. The entry is found in the table, but the routing pass stops at the
lookup of interface 5 and does not complete. -/
theorem route_completes_counterexample :
    (∀ e ∈ (addRoutes ⟨[⟨demoIface, [demoDgram 64 (ipv4 10 1 2 3)]⟩], []⟩
        [⟨0, 0, none, 5⟩]).forward_table, e.prefix_length ≤ 32) ∧
    route demoCodec (addRoutes ⟨[⟨demoIface, [demoDgram 64 (ipv4 10 1 2 3)]⟩], []⟩
        [⟨0, 0, none, 5⟩]) = .error (.interface_index 5) ∧
    ¬ ∃ r calls, route demoCodec
        (addRoutes ⟨[⟨demoIface, [demoDgram 64 (ipv4 10 1 2 3)]⟩], []⟩ [⟨0, 0, none, 5⟩])
          = .ok (r, calls) := by
  have hdec := routeDecision_forward demoCodec [⟨0, 0, none, 5⟩] (demoDgram 64 (ipv4 10 1 2 3))
    0 ⟨0, 0, none, 5⟩ (by decide) (by decide) rfl
  have hr : route demoCodec (addRoutes ⟨[⟨demoIface, [demoDgram 64 (ipv4 10 1 2 3)]⟩], []⟩
      [⟨0, 0, none, 5⟩]) = .error (.interface_index 5) := by
    simp only [route, addRoutes, add_route, List.foldl_cons, List.foldl_nil, List.nil_append,
      List.length_cons, List.length_nil, Nat.zero_add]
    rw [routeFrom]
    simp only [List.getElem?_cons_zero, List.length_cons, List.length_nil, Nat.zero_add]
    rw [routeLoop]
    simp only [List.getElem?_cons_zero, AsyncNetworkInterface.maybe_receive, routeDatagram,
      hdec, Router.interface]
    rfl
  refine ⟨by decide, hr, ?_⟩
  rintro ⟨r, calls, h⟩
  rw [hr] at h
  cases h

/-- C20, amended. The routing pass completes when every selected interface exists: for a
table built by `add_route` with prefix lengths in 0..32 and any collection of interfaces,
the lookup of the selected entry in the table never fails; and if, for each inbound
datagram that survives the TTL check, the selected entry names an existing interface,
then `Router::route` completes normally, empties every receive queue, keeps the number
of interfaces, and every `send_datagram` call it makes is the one decided for some
inbound datagram, on an existing interface. -/
theorem route_completes (cdc : Codec) (ifs : List AsyncNetworkInterface) (rs : List RouteEntry)
    (hlen32 : ∀ e ∈ rs, e.prefix_length ≤ 32)
    (hgood : ∀ a ∈ ifs, ∀ d ∈ a.datagrams_in, ∀ j e, 2 ≤ d.header.ttl →
      scanTable rs d.header.dst = some j → rs[j]? = some e → e.interface_num < ifs.length) :
    (addRoutes ⟨ifs, []⟩ rs).forward_table = rs ∧
    (∀ e ∈ (addRoutes ⟨ifs, []⟩ rs).forward_table, e.prefix_length ≤ 32) ∧
    (∀ d, ∃ r, routeDecision cdc (addRoutes ⟨ifs, []⟩ rs).forward_table d = .ok r) ∧
    ∃ ifs1 calls, route cdc (addRoutes ⟨ifs, []⟩ rs) = .ok (⟨ifs1, rs⟩, calls) ∧
      ifs1.length = ifs.length ∧
      (∀ a ∈ ifs1, a.datagrams_in = []) ∧
      (∀ c ∈ calls, c.interface_num < ifs.length ∧
        ∃ a ∈ ifs, ∃ d ∈ a.datagrams_in, routeDecision cdc rs d = .ok (some c)) := by
  have htbl : (addRoutes ⟨ifs, []⟩ rs).forward_table = rs := by
    rw [addRoutes_forward_table]
    rfl
  have hifs : (addRoutes ⟨ifs, []⟩ rs).interfaces_ = ifs := addRoutes_interfaces rs ⟨ifs, []⟩
  have hgood1 : ∀ q ∈ inboundQueues ifs, ∀ d ∈ q, ∀ c,
      routeDecision cdc rs d = .ok (some c) → c.interface_num < ifs.length := by
    intro q hq d hd c hc
    unfold inboundQueues at hq
    obtain ⟨a, ha, haq⟩ := List.mem_map.mp hq
    obtain ⟨httl, j, e, hsel, he, hce⟩ := routeDecision_some_inv cdc rs d c hc
    rw [hce]
    exact hgood a ha d (by rw [haq]; exact hd) j e httl hsel he
  obtain ⟨ifs1, calls, hfrom, hlen, hq, hcalls⟩ :=
    routeFrom_ok cdc rs ifs.length ifs.length 0 ifs rfl (by omega) hgood1
  refine ⟨htbl, ?_, ?_, ifs1, calls, ?_, hlen, ?_, ?_⟩
  · rw [htbl]
    exact hlen32
  · intro d
    rw [htbl]
    exact routeDecision_ok cdc rs d
  · have hr : addRoutes ⟨ifs, []⟩ rs = ⟨ifs, rs⟩ := by
      cases h : addRoutes ⟨ifs, []⟩ rs with
      | mk i1 t1 =>
        rw [h] at htbl hifs
        simp only [] at htbl hifs
        rw [htbl, hifs]
    rw [hr]
    simp only [route, hfrom]
  · intro a ha
    obtain ⟨k, hk⟩ := List.mem_iff_getElem?.mp ha
    have h1 : (inboundQueues ifs1)[k]? = some a.datagrams_in := by
      unfold inboundQueues
      rw [List.getElem?_map, hk]
      rfl
    rw [hq k, if_pos (Nat.zero_le k)] at h1
    obtain ⟨_, _, h2⟩ := Option.map_eq_some'.mp h1
    exact h2.symm
  · intro c hc
    obtain ⟨q, hqm, d, hd, hdec⟩ := hcalls c hc
    refine ⟨hgood1 q hqm d hd c hdec, ?_⟩
    unfold inboundQueues at hqm
    obtain ⟨a, ha, haq⟩ := List.mem_map.mp hqm
    exact ⟨a, ha, d, by rw [haq]; exact hd, hdec⟩

/-- Witness for C20: two interfaces, the route 10.0.0.0/8 to interface 1; a datagram for
10.1.2.3 and one with TTL 1 wait on interface 0. The pass completes with one call. -/
theorem route_completes_witness :
    (∀ e ∈ [(⟨ipv4 10 0 0 0, 8, none, 1⟩ : RouteEntry)], e.prefix_length ≤ 32) ∧
    ∃ ifs1 calls,
      route demoCodec (addRoutes
        ⟨[⟨demoIface, [demoDgram 64 (ipv4 10 1 2 3), demoDgram 1 (ipv4 10 1 2 3)]⟩, demoAsync], []⟩
        [⟨ipv4 10 0 0 0, 8, none, 1⟩]) = .ok (⟨ifs1, [⟨ipv4 10 0 0 0, 8, none, 1⟩]⟩, calls) ∧
      ifs1.length = 2 ∧ (∀ a ∈ ifs1, a.datagrams_in = []) :=
  have hlen32 : ∀ e ∈ [(⟨ipv4 10 0 0 0, 8, none, 1⟩ : RouteEntry)], e.prefix_length ≤ 32 := by
    decide
  ⟨hlen32,
    (route_completes demoCodec
      [⟨demoIface, [demoDgram 64 (ipv4 10 1 2 3), demoDgram 1 (ipv4 10 1 2 3)]⟩, demoAsync]
      [⟨ipv4 10 0 0 0, 8, none, 1⟩] hlen32
      (by
        intro a _ d _ j e _ hsel he
        have hj : j < 1 := by
          by_contra hge
          have hlen : ([⟨ipv4 10 0 0 0, 8, none, 1⟩] : List RouteEntry).length ≤ j := by
            rw [List.length_singleton]
            omega
          rw [List.getElem?_eq_none hlen] at he
          cases he
        have hj0 : j = 0 := by omega
        subst hj0
        simp only [List.getElem?_cons_zero, Option.some.injEq] at he
        rw [← he]
        decide)).2.2.2.elim
      (fun ifs1 h => h.elim (fun calls hc => ⟨ifs1, calls, hc.1, hc.2.1, hc.2.2.1⟩))⟩

end Net
